import Mathlib

/-!
# Verification of the omnix task-execution pipeline

A shallow embedding of the core research pipeline of
`adk-service/simple_adk_service.py` (intent extraction, research
orchestration, insight analysis, report synthesis, delivery dispatch),
together with proofs settling the specification claims.

Python strings are modelled as Lean `String` (a wrapped `List Char`),
and the `re` module calls are modelled by a small backtracking matcher
that reproduces `re.search` semantics for the exact patterns the code
uses: leftmost match wins, alternations are tried left to right, greedy
quantifiers try the longest repetition first, lazy quantifiers the
shortest, and `.` does not match a newline.  `IGNORECASE` matching is
modelled by comparing characters through `Char.toLower` against
pre-lowered pattern literals (exact for the ASCII texts the service
manipulates).
-/

namespace Omnix

/-! ## Python string primitives -/

/-- `str.lower()`: lower-case every character. -/
def pyLower (s : String) : String := ⟨s.data.map Char.toLower⟩

/-- Python `\s` whitespace class. -/
def wsB (c : Char) : Bool :=
  c == ' ' || c == '\t' || c == '\n' || c == '\r' || c == '\x0b' || c == '\x0c'

/-- `str.strip()`: remove leading and trailing whitespace. -/
def pyStripL (l : List Char) : List Char :=
  ((l.dropWhile wsB).reverse.dropWhile wsB).reverse

/-- `str.strip()` on strings. -/
def pyStrip (s : String) : String := ⟨pyStripL s.data⟩

/-- Python slicing `s[:n]` (by characters). -/
def pyTake (s : String) (n : Nat) : String := ⟨s.data.take n⟩

/-- First index at which `sep` occurs as a prefix-of-suffix of `l`. -/
def findSub (sep : List Char) : List Char → Option Nat
  | [] => if sep = [] then some 0 else none
  | c :: cs =>
    if sep.isPrefixOf (c :: cs) then some 0
    else (findSub sep cs).map (· + 1)

/-- Python `needle in hay` substring test. -/
def pyContains (hay needle : String) : Bool := (findSub needle.data hay.data).isSome

/-- Python `str.split(sep)` for a non-empty separator, fuel-driven. -/
def splitOnL (sep : List Char) : Nat → List Char → List (List Char)
  | 0, l => [l]
  | fuel + 1, l =>
    match findSub sep l with
    | none => [l]
    | some i => l.take i :: splitOnL sep fuel (l.drop (i + sep.length))

/-- Python `str.split(sep)`. -/
def pySplit (s : String) (sep : String) : List String :=
  (splitOnL sep.data (s.data.length + 1) s.data).map (⟨·⟩)

/-- Python `"sep".join` restricted to `"\n".join`, and the report /
response assembly `"\n".join(parts)`. -/
def joinN : List String → String
  | [] => ""
  | [a] => a
  | a :: rest => a ++ "\n" ++ joinN rest

/-! ## A backtracking matcher for the patterns used by the service

`Res` is the result of a successful match continuation: the span of
capture group 1 (if the group participated) and the end position of the
whole match. -/

abbrev Res := Option (Nat × Nat) × Nat

/-- Regular-expression fragments actually used by the service.  All
quantifiers in the source apply to single-character classes, which is
what the constructors provide. -/
inductive RE where
  | emp : RE
  | lit (l : List Char) : RE
  | cls (p : Char → Bool) : RE
  | seq (a b : RE) : RE
  | alt (a b : RE) : RE
  | grp (r : RE) : RE
  | eos : RE
  | plusG (p : Char → Bool) : RE
  | plusL (p : Char → Bool) : RE
  | starG (p : Char → Bool) : RE
  | starL (p : Char → Bool) : RE

/-- Case-insensitive literal match of `l` at index `i` of `s` (`l` is
pre-lowered). -/
def litAt (s : List Char) (l : List Char) (i : Nat) : Bool :=
  match l with
  | [] => true
  | c :: cs =>
    match s.get? i with
    | some d => d.toLower == c && litAt s cs (i + 1)
    | none => false

/-- Length of the maximal run of characters satisfying `p` starting at
index `i`. -/
def maxRun (s : List Char) (p : Char → Bool) (i : Nat) : Nat :=
  ((s.drop i).takeWhile p).length

/-- First successful value of `f` over the candidate list. -/
def firstSome? (f : Nat → Option Res) : List Nat → Option Res
  | [] => none
  | c :: cs =>
    match f c with
    | some r => some r
    | none => firstSome? f cs

/-- `[a, a+1, ..., a+n]`. -/
def rangeUp (a : Nat) : Nat → List Nat
  | 0 => [a]
  | n + 1 => a :: rangeUp (a + 1) n

/-- `[n, n-1, ..., 1]`. -/
def rangeDown : Nat → List Nat
  | 0 => []
  | n + 1 => (n + 1) :: rangeDown n

/-- The matcher.  `M s re i k` attempts to match `re` at index `i` of
`s`, calling continuation `k` with the index just past the consumed
text; backtracking is realised by trying candidate repetition counts in
the order Python tries them. -/
def M (s : List Char) : RE → Nat → (Nat → Option Res) → Option Res
  | .emp, i, k => k i
  | .lit l, i, k => if litAt s l i then k (i + l.length) else none
  | .cls p, i, k =>
    match s.get? i with
    | some c => if p c then k (i + 1) else none
    | none => none
  | .seq a b, i, k => M s a i (fun j => M s b j k)
  | .alt a b, i, k =>
    match M s a i k with
    | some r => some r
    | none => M s b i k
  | .grp r, i, k =>
    M s r i (fun j => (k j).map (fun res => (res.1.orElse (fun _ => some (i, j)), res.2)))
  | .eos, i, k =>
    if i = s.length ∨ (i + 1 = s.length ∧ s.get? i = some '\n') then k i else none
  | .plusG p, i, k => firstSome? (fun c => k (i + c)) (rangeDown (maxRun s p i))
  | .plusL p, i, k =>
    firstSome? (fun c => k (i + c))
      (match maxRun s p i with
       | 0 => []
       | m + 1 => rangeUp 1 m)
  | .starG p, i, k => firstSome? (fun c => k (i + c)) (rangeDown (maxRun s p i) ++ [0])
  | .starL p, i, k => firstSome? (fun c => k (i + c)) (rangeUp 0 (maxRun s p i))

/-- Positions tried by `re.search`, in order. -/
def searchGo (re : RE) (s : List Char) : List Nat → Option (Nat × Res)
  | [] => none
  | i :: is =>
    match M s re i (fun j => some (none, j)) with
    | some r => some (i, r)
    | none => searchGo re s is

/-- `re.search`: leftmost match; returns match start, capture span, and
match end. -/
def reFindL (re : RE) (s : List Char) : Option (Nat × Res) :=
  searchGo re s (rangeUp 0 s.length)

/-- `re.search(pattern, s).group(1)`: capture group 1 of the leftmost
match, as a string. -/
def reCap (re : RE) (s : String) : Option String :=
  match reFindL re s.data with
  | some (_, some (a, b), _) => some ⟨(s.data.drop a).take (b - a)⟩
  | _ => none

/-- Anchored (`^...`) variant of `re.search`: the match may start only
at position 0. -/
def reFindAnch (re : RE) (s : List Char) : Option Res :=
  M s re 0 (fun j => some (none, j))

/-- Capture group 1 of an anchored search. -/
def reCapAnch (re : RE) (s : String) : Option String :=
  match reFindAnch re s.data with
  | some (some (a, b), _) => some ⟨(s.data.drop a).take (b - a)⟩
  | _ => none

/-- `re.sub(pattern, '', s)` worker: repeatedly delete the leftmost
match and continue scanning after it. -/
def subAllL (re : RE) : Nat → List Char → List Char
  | 0, l => l
  | fuel + 1, l =>
    match reFindL re l with
    | none => l
    | some (a, _, e) => l.take a ++ subAllL re fuel (l.drop (max e (a + 1)))

/-- `re.sub(pattern, '', s)` for the service's unanchored patterns. -/
def pySub (re : RE) (s : String) : String := ⟨subAllL re (s.data.length + 1) s.data⟩

/-- `re.sub(r'^...', '', s)`: a `^`-anchored pattern (no MULTILINE) can
only match at position 0, so at most one removal happens. -/
def pySubAnch (re : RE) (s : String) : String :=
  match reFindAnch re s.data with
  | some (_, e) => ⟨s.data.drop e⟩
  | none => s

/-! ## The service's character classes and regular expressions -/

/-- Python `\w` (ASCII fragment). -/
def wordB (c : Char) : Bool := c.isAlphanum || c == '_'

/-- The class `[\w\.-]` of the e-mail patterns. -/
def emailB (c : Char) : Bool := wordB c || c == '.' || c == '-'

/-- Regex `.` (any character except a newline). -/
def dotAnyB (c : Char) : Bool := c != '\n'

/-- The class `[^.?]`. -/
def notDotQB (c : Char) : Bool := c != '.' && c != '?'

/-- The class `[^.]`. -/
def notDotB (c : Char) : Bool := c != '.'

/-- A literal token (pattern literals are written pre-lowered; the
matcher compares through `Char.toLower`, which models `IGNORECASE` and
is also exact for patterns run against already-lowered text). -/
def strLit (x : String) : RE := .lit x.data

/-- `(?:a|b|...)`, alternatives tried left to right. -/
def oneOf : List String → RE
  | [] => .eos
  | [x] => strLit x
  | x :: xs => .alt (strLit x) (oneOf xs)

/-- Sequencing of a pattern list. -/
def seqs : List RE → RE
  | [] => .emp
  | [r] => r
  | r :: rs => .seq r (seqs rs)

/-- `(?:...)?` (greedy option). -/
def optRE (r : RE) : RE := .alt r .emp

/-- `[\w\.-]+@[\w\.-]+\.\w+` — the e-mail shape used everywhere. -/
def emailRE : RE :=
  seqs [.plusG emailB, strLit "@", .plusG emailB, strLit ".", .plusG wordB]

/-- Line 379: `send.*?(?:to|result to)\s+([\w\.-]+@[\w\.-]+\.\w+)`,
run against the lowered task text. -/
def dispatchRE : RE :=
  seqs [strLit "send", .starL dotAnyB, oneOf ["to", "result to"], .plusG wsB,
    .grp emailRE]

/-- Line 265: `\s*(?:send|email|mail).*?(?:to|at)\s+EMAIL.*?(?:\.|$)`. -/
def cleanRE1 : RE :=
  seqs [.starG wsB, oneOf ["send", "email", "mail"], .starL dotAnyB,
    oneOf ["to", "at"], .plusG wsB, emailRE, .starL dotAnyB,
    .alt (strLit ".") .eos]

/-- Line 266: `\s*(?:research and |and research |and )?send.*?(?:to|at)\s+EMAIL.*?(?:\.|$)`. -/
def cleanRE2 : RE :=
  seqs [.starG wsB, optRE (oneOf ["research and ", "and research ", "and "]),
    strLit "send", .starL dotAnyB, oneOf ["to", "at"], .plusG wsB, emailRE,
    .starL dotAnyB, .alt (strLit ".") .eos]

/-- Line 270: `^(?:what are the|what is the|what are|what is|how to|how do|can you|please)\s+`. -/
def prefixRE1 : RE :=
  seqs [oneOf ["what are the", "what is the", "what are", "what is",
    "how to", "how do", "can you", "please"], .plusG wsB]

/-- Line 271: `^(?:conduct a|perform a|do a|make a)\s+`. -/
def prefixRE2 : RE :=
  seqs [oneOf ["conduct a", "perform a", "do a", "make a"], .plusG wsB]

/-- Terminator `(?:\?|\.|\s+W1|\s+W2|$)` shared by the extraction
patterns (the two `\s+` words are listed in source order). -/
def termWords (w1 w2 : String) : RE :=
  .alt (strLit "?") (.alt (strLit ".")
    (.alt (seqs [.plusG wsB, strLit w1])
      (.alt (seqs [.plusG wsB, strLit w2]) .eos)))

/-- Weather pattern 1 (line 278):
`(?:weather|forecast|conditions).*?(?:in|for|at)\s+([^.?]+?)(?:\?|\.|\s+for|\s+event|$)`. -/
def weatherRE1 : RE :=
  seqs [oneOf ["weather", "forecast", "conditions"], .starL dotAnyB,
    oneOf ["in", "for", "at"], .plusG wsB, .grp (.plusL notDotQB),
    termWords "for" "event"]

/-- Weather pattern 2 (line 279):
`(?:outdoor|event).*?(?:in|at)\s+([^.?]+?)(?:\?|\.|\s+plan|$)`. -/
def weatherRE2 : RE :=
  seqs [oneOf ["outdoor", "event"], .starL dotAnyB, oneOf ["in", "at"],
    .plusG wsB, .grp (.plusL notDotQB),
    .alt (strLit "?") (.alt (strLit ".")
      (.alt (seqs [.plusG wsB, strLit "plan"]) .eos))]

/-- Weather pattern 3 (line 280):
`(?:plan|planning).*?(?:in|at|for)\s+([^.?]+?)(?:\?|\.|\s+event|$)`. -/
def weatherRE3 : RE :=
  seqs [oneOf ["plan", "planning"], .starL dotAnyB, oneOf ["in", "at", "for"],
    .plusG wsB, .grp (.plusL notDotQB),
    .alt (strLit "?") (.alt (strLit ".")
      (.alt (seqs [.plusG wsB, strLit "event"]) .eos))]

/-- Financial pattern 1 (line 298). -/
def finRE1 : RE :=
  seqs [oneOf ["investment opportunities", "opportunities", "investing", "invest"],
    .plusG wsB, oneOf ["in", "for"], .plusG wsB, .grp (.plusL notDotQB),
    termWords "research" "research"]

/-- Financial pattern 2 (line 299):
`(?:best|good|top)\s+([^.?]*?(?:investment|stock|market|financial)[^.?]*?)(?:...)`. -/
def finRE2 : RE :=
  seqs [oneOf ["best", "good", "top"], .plusG wsB,
    .grp (seqs [.starL notDotQB,
      oneOf ["investment", "stock", "market", "financial"], .starL notDotQB]),
    termWords "research" "research"]

/-- Financial pattern 3 (line 300). -/
def finRE3 : RE :=
  seqs [oneOf ["analyze", "analysis", "research", "trends"], .plusG wsB,
    oneOf ["of", "in", "on", "for"], .plusG wsB, .grp (.plusL notDotQB),
    termWords "research" "research"]

/-- Financial pattern 4 (line 301). -/
def finRE4 : RE :=
  seqs [oneOf ["financial", "market", "stock", "investment"], .plusG wsB,
    .grp (.plusL notDotQB), termWords "research" "research"]

/-- Line 309: `\s+(?:research|and research|send|email).*$`. -/
def finStripRE : RE :=
  seqs [.plusG wsB, oneOf ["research", "and research", "send", "email"],
    .starG dotAnyB, .eos]

/-- Academic pattern 1 (line 320). -/
def acadRE1 : RE :=
  seqs [oneOf ["literature review", "review", "research", "study", "analysis"],
    .plusG wsB, oneOf ["on", "of", "about", "regarding"], .plusG wsB,
    .grp (.plusL notDotQB), termWords "send" "send"]

/-- Academic pattern 2 (line 321). -/
def acadRE2 : RE :=
  seqs [oneOf ["applications", "uses", "role"], .plusG wsB, oneOf ["of", "in"],
    .plusG wsB, .grp (.plusL notDotQB), termWords "send" "send"]

/-- Academic pattern 3 (line 322). -/
def acadRE3 : RE :=
  seqs [oneOf ["machine learning", "ai", "artificial intelligence"], .plusG wsB,
    oneOf ["in", "for", "applications in"], .plusG wsB, .grp (.plusL notDotQB),
    termWords "send" "send"]

/-- Line 330: `\s+(?:send|email|mail).*$`. -/
def acadStripRE : RE :=
  seqs [.plusG wsB, oneOf ["send", "email", "mail"], .starG dotAnyB, .eos]

/-- Topic pattern 1 (line 342):
`(?:about|on|regarding|for)\s+([^.?]+?)(?:\?|\.|\s+Send|\s+send|$)`. -/
def topicRE1 : RE :=
  seqs [oneOf ["about", "on", "regarding", "for"], .plusG wsB,
    .grp (.plusL notDotQB), termWords "send" "send"]

/-- Topic pattern 2 (line 343): `^([^.?]+?)(?:\?|\.|\s+Send|\s+send|$)`
(anchored). -/
def topicRE2 : RE :=
  seqs [.grp (.plusL notDotQB), termWords "send" "send"]

/-! ## Intent extraction (`execute_task_with_tools`, lines 243–355) -/

/-- Line 250: keywords whose presence triggers research. -/
def researchKeywords : List String :=
  ["research", "search", "find", "information", "context processing",
   "weather", "forecast", "conditions", "temperature", "rain", "snow",
   "financial", "market", "stock", "investment", "cryptocurrency",
   "academic", "literature", "study", "analysis"]

/-- `should_research` (line 250). -/
def shouldResearch (task : String) : Bool :=
  researchKeywords.any (fun k => pyContains (pyLower task) k)

/-- Lines 265–272: strip e-mail delivery clauses and leading
boilerplate from a working copy of the task text. -/
def cleanTaskOf (task : String) : String :=
  let c1 := pySub cleanRE1 task
  let c2 := pySub cleanRE2 c1
  let c3 := pyStrip c2
  let c4 := pySubAnch prefixRE1 c3
  let c5 := pySubAnch prefixRE2 c4
  pyStrip c5

/-- Lines 277–288: first matching location pattern wins; the captured
group is stripped. -/
def weatherLocation (task : String) : Option String :=
  match reCap weatherRE1 task with
  | some g => some (pyStrip g)
  | none =>
    match reCap weatherRE2 task with
    | some g => some (pyStrip g)
    | none => (reCap weatherRE3 task).map pyStrip

/-- Line 310: words the extracted financial topic may not equal. -/
def finStopWords : List String :=
  ["and", "or", "but", "the", "of", "in", "to", "a", "an"]

/-- One round of the financial loop (lines 304–312): when the pattern
matches, the cleaned capture is accepted only if longer than 3
characters and not a stop word; otherwise the loop moves on. -/
def finTry (re : RE) (clean : String) : Option String :=
  match reCap re clean with
  | some g =>
    let e := pySub finStripRE (pyStrip g)
    if e.length > 3 && !(finStopWords.contains (pyLower e)) then some e else none
  | none => none

/-- Lines 297–312: the financial extraction cascade. -/
def finExtract (clean : String) : Option String :=
  (finTry finRE1 clean).orElse fun _ =>
    (finTry finRE2 clean).orElse fun _ =>
      (finTry finRE3 clean).orElse fun _ => finTry finRE4 clean

/-- One round of the academic loop (lines 325–333). -/
def acadTry (re : RE) (clean : String) : Option String :=
  match reCap re clean with
  | some g =>
    let e := pySub acadStripRE (pyStrip g)
    if e.length > 3 then some e else none
  | none => none

/-- Lines 319–333: the academic extraction cascade. -/
def acadExtract (clean : String) : Option String :=
  (acadTry acadRE1 clean).orElse fun _ =>
    (acadTry acadRE2 clean).orElse fun _ => acadTry acadRE3 clean

/-- One round of the generic topic loop (lines 346–352); `topicRE2` is
anchored. -/
def topicTry (cap : Option String) : Option String :=
  match cap with
  | some g =>
    let e := pyStrip g
    if e.length > 3 then some e else none
  | none => none

/-- Lines 341–355: the generic topic extraction cascade. -/
def topicExtract (clean : String) : Option String :=
  (topicTry (reCap topicRE1 clean)).orElse fun _ =>
    topicTry (reCapAnch topicRE2 clean)

/-- Lines 262–355: research-query derivation once research was
triggered.  The branch cascade is weather → financial → academic →
generic, first match wins. -/
def rqCore (task : String) : String :=
  if pyContains (pyLower task) "weather" || pyContains (pyLower task) "forecast" then
    match weatherLocation task with
    | some loc =>
      if loc ≠ "" then "current weather forecast " ++ loc
      else "current weather forecast"
    | none => "current weather forecast"
  else if ["investment", "financial", "market", "stock", "cryptocurrency"].any
      (fun k => pyContains (pyLower task) k) then
    (finExtract (cleanTaskOf task)).getD "current market analysis financial trends"
  else if ["literature", "academic", "research", "study", "analysis"].any
      (fun k => pyContains (pyLower task) k) then
    (acadExtract (cleanTaskOf task)).getD "academic research analysis"
  else
    (topicExtract (cleanTaskOf task)).getD "general research query"

/-- The `research_query` value the pipeline ends up with: the cascade
when research is triggered, else the untouched task text (line 246). -/
def rqFull (task : String) : String :=
  if shouldResearch task then rqCore task else task

/-- Line 379: destination extraction from the lowered task text. -/
def dispatchCapture (task : String) : Option String :=
  reCap dispatchRE (pyLower task)

/-! ## Data model -/

/-- `str.upper()`. -/
def pyUpper (s : String) : String := ⟨s.data.map Char.toUpper⟩

/-- `", ".join`. -/
def joinComma : List String → String
  | [] => ""
  | [a] => a
  | a :: rest => a ++ ", " ++ joinComma rest

/-- One item of the search collaborator's result list
(`firecrawl_web_search`, firecrawl_tool.py lines 48–54). -/
structure SearchItem where
  title : String
  url : String
  content : String
  snippet : String
deriving DecidableEq, Repr

/-- The search collaborator's response dictionary.  `error` is `none`
when the key is absent (reads default to `"Unknown error"`). -/
structure SearchResp where
  success : Bool
  results : List SearchItem
  error : Option String
deriving DecidableEq, Repr

/-- Every failure return of `firecrawl_web_search` (missing key, bad
status, exception) carries `success=False` and an empty result list. -/
def SearchResp.fail (err : String) : SearchResp := ⟨false, [], some err⟩

/-- A scraped page as consumed by the pipeline.  `firecrawl_scrape_content`
is referenced by the service but not part of the sources; the field set
is the one the pipeline reads (`success`, `content`, `title`, `author`,
`publishDate`), with `""` modelling an absent/falsy value. -/
structure Scraped where
  success : Bool
  content : String
  title : String
  author : String
  publishDate : String
deriving DecidableEq, Repr

/-- The delivery collaborator's response (`send_email`, email_tool.py):
success flag, echoed recipient, and an error message on failure. -/
structure EmailResp where
  success : Bool
  /-- the `to` key of the response dictionary -/
  toAddr : String
  error : Option String
deriving DecidableEq, Repr

/-- The slice of an `Agent` record the pipeline reads. -/
structure AgentR where
  name : String
  type : String
deriving DecidableEq, Repr

/-- The analyzer's four insight buckets (lines 907–912). -/
structure Insights where
  key_findings : List String
  specific_data : List String
  recommendations : List String
  summary : List String
deriving DecidableEq, Repr

/-- The all-empty bundle. -/
def Insights.empty : Insights := ⟨[], [], [], []⟩

/-! ## Insight analyzer (`analyze_content_for_insights`, lines 904–1010)

`list(set(xs))` iterates a Python `set`, whose order is a function of
the per-process string-hash seed, not of the input alone.  The analyzer
is therefore parametrised by the linearisation `σ` the running process
uses; `SetLinearizer σ` is exactly the contract `list(set(xs))`
satisfies: a duplicate-free list with the same membership. -/

def SetLinearizer (σ : List String → List String) : Prop :=
  ∀ l : List String, (σ l).Nodup ∧ ∀ x, x ∈ σ l ↔ x ∈ l

/-- Line 1006 for one bucket: keep entries that are non-empty after
stripping, iterate the deduplicating set, truncate to 5. -/
def cleanupBucket (σ : List String → List String) (b : List String) : List String :=
  (σ (b.filter (fun s => pyStrip s ≠ ""))).take 5

def tempKws : List String := ["temperature", "degrees", "°f", "°c", "high", "low"]
def condKws : List String :=
  ["rain", "snow", "sunny", "cloudy", "storm", "wind", "humidity", "precipitation"]
def fcKws : List String := ["forecast", "outlook", "expected", "today", "tomorrow", "week"]
def priceKws : List String := ["price", "cost", "return", "yield", "gain", "loss"]
def invKws : List String :=
  ["invest", "opportunity", "recommend", "strategy", "portfolio", "diversify"]
def trendKws : List String :=
  ["trend", "growth", "market", "sector", "industry", "analysis"]
def methodKws : List String :=
  ["methodology", "method", "study design", "participants", "sample"]
def resultKws : List String :=
  ["findings", "results", "conclusion", "significant", "evidence"]
def acadRecKws : List String :=
  ["recommend", "suggest", "future research", "limitation", "implication"]
def solKws : List String :=
  ["solution", "resolve", "fix", "procedure", "policy", "refund", "exchange"]
def contactKws : List String :=
  ["contact", "phone", "email", "department", "escalate", "manager"]

/-- `any(k in s.lower() for k in kws)`. -/
def anyKw (kws : List String) (s : String) : Bool :=
  kws.any (fun k => pyContains (pyLower s) k)

/-- Lines 917–921: concatenate the successfully scraped page bodies. -/
def allTextOf (scraped : List Scraped) : String :=
  (scraped.filter (fun c => c.success && c.content ≠ "")).foldl
    (fun acc c => acc ++ c.content ++ "\n\n") ""

/-- The classification phase of the analyzer (the branch bodies of
lines 926–1002, before the clean-up of lines 1004–1008).  The per-line
`if`/`elif` classification of the source loop is expressed
bucket-by-bucket; a unit enters a bucket exactly when its branch fires
and no earlier branch did, as in the source. -/
def analyzeRaw (scraped_content : List Scraped)
    (agent_type task_description : String) : Insights :=
  let all_text := allTextOf scraped_content
  let atl := pyLower agent_type
  let tdl := pyLower task_description
  if pyContains atl "weather" || pyContains tdl "weather" then
      let lines := (pySplit all_text "\n").map pyStrip
      { key_findings := lines.filterMap (fun l =>
          if l.length < 20 then none
          else if anyKw tempKws l then none
          else if anyKw condKws l then some ("Conditions: " ++ pyTake l 150)
          else none),
        specific_data := lines.filterMap (fun l =>
          if l.length < 20 then none
          else if anyKw tempKws l then
            (if l.data.any Char.isDigit then some ("Temperature: " ++ pyTake l 150) else none)
          else none),
        recommendations := [],
        summary := lines.filterMap (fun l =>
          if l.length < 20 then none
          else if anyKw tempKws l then none
          else if anyKw condKws l then none
          else if anyKw fcKws l then some ("Forecast: " ++ pyTake l 150)
          else none) }
    else if pyContains atl "financial" ||
        ["investment", "market", "financial", "stock"].any (fun k => pyContains tdl k) then
      let lines := (pySplit all_text "\n").map pyStrip
      let priceLine := fun (l : String) =>
        (l.data.contains '$' || l.data.contains '%') && anyKw priceKws l
      { key_findings := lines.filterMap (fun l =>
          if l.length < 30 then none
          else if priceLine l then none
          else if anyKw invKws l then none
          else if anyKw trendKws l then some ("Market Analysis: " ++ pyTake l 200)
          else none),
        specific_data := lines.filterMap (fun l =>
          if l.length < 30 then none
          else if priceLine l then some ("Market Data: " ++ pyTake l 200)
          else none),
        recommendations := lines.filterMap (fun l =>
          if l.length < 30 then none
          else if priceLine l then none
          else if anyKw invKws l then some ("Investment Insight: " ++ pyTake l 200)
          else none),
        summary := [] }
    else if pyContains atl "academic" || pyContains tdl "research" then
      let paras := (pySplit all_text "\n\n").map pyStrip
      { key_findings := paras.filterMap (fun p =>
          if p.length < 50 then none
          else if anyKw methodKws p then none
          else if anyKw resultKws p then some ("Research Finding: " ++ pyTake p 250)
          else none),
        specific_data := paras.filterMap (fun p =>
          if p.length < 50 then none
          else if anyKw methodKws p then some ("Methodology: " ++ pyTake p 250)
          else none),
        recommendations := paras.filterMap (fun p =>
          if p.length < 50 then none
          else if anyKw methodKws p then none
          else if anyKw resultKws p then none
          else if anyKw acadRecKws p then some ("Research Recommendation: " ++ pyTake p 250)
          else none),
        summary := [] }
    else if pyContains atl "customer" then
      let lines := (pySplit all_text "\n").map pyStrip
      { key_findings := [],
        specific_data := lines.filterMap (fun l =>
          if l.length < 20 then none
          else if anyKw solKws l then none
          else if anyKw contactKws l then some ("Contact Info: " ++ pyTake l 150)
          else none),
        recommendations := lines.filterMap (fun l =>
          if l.length < 20 then none
          else if anyKw solKws l then some ("Solution: " ++ pyTake l 200)
          else none),
        summary := [] }
  else Insights.empty

/-- The analyzer (`analyze_content_for_insights`): early returns for
missing input, classification, then per-bucket clean-up. -/
def analyzeContentForInsights (σ : List String → List String)
    (scraped_content : List Scraped) (agent_type research_query task_description : String) :
    Insights :=
  let _ := research_query
  if scraped_content.isEmpty then Insights.empty else
  if allTextOf scraped_content = "" then Insights.empty else
  let raw := analyzeRaw scraped_content agent_type task_description
  { key_findings := cleanupBucket σ raw.key_findings,
    specific_data := cleanupBucket σ raw.specific_data,
    recommendations := cleanupBucket σ raw.recommendations,
    summary := cleanupBucket σ raw.summary }

/-! ## Report synthesizer (`generate_comprehensive_report`, lines 459–902)

The report is assembled as the list `report_parts` and joined with
newlines.  `datetime.now()` is passed in as the string `now`.  The
guard `search_result.get('success') and content_insights` of the source
collapses to the success flag: `content_insights` is always a four-key
dictionary (line 464 replaces `None` by one), hence always truthy. -/

def bar80 : String := ⟨List.replicate 80 '='⟩
def dash40 : String := ⟨List.replicate 40 '-'⟩

/-- Header title, lines 470–481. -/
def headerTitle (agent_type agent_name : String) : String :=
  if agent_type = "llm" && pyContains (pyLower agent_name) "research" then
    "COMPREHENSIVE RESEARCH REPORT"
  else if agent_type = "sequential" && pyContains (pyLower agent_name) "customer" then
    "CUSTOMER SERVICE RESOLUTION REPORT"
  else if agent_type = "llm" && pyContains (pyLower agent_name) "weather" then
    "WEATHER INFORMATION REPORT"
  else if agent_type = "parallel" && pyContains (pyLower agent_name) "financial" then
    "FINANCIAL ANALYSIS REPORT"
  else if agent_type = "loop" && pyContains (pyLower agent_name) "academic" then
    "ACADEMIC RESEARCH REPORT"
  else "TASK COMPLETION REPORT"

/-- Header block, lines 469–489. -/
def headerParts (task rq : String) (search : SearchResp) (name typ now : String) :
    List String :=
  [bar80, headerTitle typ name, bar80, "Request: " ++ task]
  ++ (if search.success then ["Research Query: " ++ rq] else [])
  ++ ["Agent: " ++ name ++ " (" ++ pyUpper typ ++ ")", "Generated on: " ++ now, ""]

/-- An insight list rendered as `• ...` bullets under a label, empty
when the list is empty (the pervasive pattern of lines 507–525 etc.). -/
def bulletBlock (label : String) (items : List String) : List String :=
  if items ≠ [] then ["", label] ++ items.map (fun x => "• " ++ x) else []

/-- Summary section, lines 492–665. -/
def summaryParts (task rq : String) (search : SearchResp) (scraped : List Scraped)
    (name : String) (ins : Insights) : List String :=
  if pyContains (pyLower name) "customer" then
    ["RESOLUTION SUMMARY", dash40,
     "I have analyzed your request and prepared a professional response.",
     "As a Customer Service representative, I focus on providing helpful solutions",
     "and ensuring customer satisfaction through clear communication."]
  else if pyContains (pyLower name) "weather" then
    ["WEATHER SUMMARY", dash40]
    ++ (if search.success then
      ["Based on current weather analysis:"]
      ++ bulletBlock "CURRENT CONDITIONS:" ins.specific_data
      ++ bulletBlock "WEATHER CONDITIONS:" ins.key_findings
      ++ bulletBlock "FORECAST OUTLOOK:" ins.summary
      ++ (if ins.specific_data = [] && ins.key_findings = [] && ins.summary = [] then
            ["Weather information found in search results:"]
            ++ (search.results.take 2).map (fun r => "• " ++ r.snippet)
          else [])
    else
      ["I have processed your weather-related request.",
       "As a Weather Assistant, I provide current conditions, forecasts,",
       "and recommendations for weather-related planning."])
  else if pyContains (pyLower name) "financial" then
    ["FINANCIAL ANALYSIS SUMMARY", dash40]
    ++ (if search.success then
      ["Based on comprehensive analysis of " ++ rq ++ ":"]
      ++ bulletBlock "MARKET DATA & ANALYSIS:" ins.specific_data
      ++ bulletBlock "MARKET TRENDS & INSIGHTS:" ins.key_findings
      ++ bulletBlock "PROFESSIONAL INSIGHTS:" ins.recommendations
      ++ (if ins.specific_data = [] && ins.key_findings = [] && ins.recommendations = [] then
            ["Market information found in research:"]
            ++ (search.results.take 2).filterMap (fun r =>
              if ["investment", "market", "financial", "energy", "renewable"].any
                  (fun k => pyContains (pyLower r.title ++ pyLower r.snippet) k) then
                some ("• " ++ r.title ++ ": " ++ r.snippet)
              else none)
          else [])
    else
      ["I have analyzed your financial inquiry using available market knowledge.",
       "As a Financial Advisor, I provide investment insights, market analysis,",
       "and financial recommendations based on current data."])
  else if pyContains (pyLower name) "academic" then
    ["ACADEMIC RESEARCH SUMMARY", dash40]
    ++ (if search.success then
      let academic_sources := search.results.filter (fun r =>
        ["study", "research", "journal", "pubmed", "scholar", "academic"].any
          (fun k => pyContains (pyLower r.title ++ pyLower r.url) k))
      ["Comprehensive literature review on: " ++ rq]
      ++ (if academic_sources ≠ [] then
          ["", "ACADEMIC SOURCES REVIEWED (" ++ toString academic_sources.length
            ++ " sources):"]
          ++ academic_sources.enum.flatMap (fun (j, src) =>
            [toString (j + 1) ++ ". " ++ src.title]
            ++ (if pyContains src.url "doi" || pyContains src.url "pubmed" then
                  ["   [Peer-reviewed: " ++ src.url ++ "]"]
                else [])
            ++ ["   Summary: " ++ src.snippet, ""])
        else [])
      ++ (if ins.specific_data ≠ [] then
          ["METHODOLOGY & STUDY DESIGN:"] ++ ins.specific_data.map ("• " ++ ·) ++ [""]
        else [])
      ++ (if ins.key_findings ≠ [] then
          ["KEY RESEARCH FINDINGS:"] ++ ins.key_findings.map ("• " ++ ·) ++ [""]
        else [])
      ++ (if ins.recommendations ≠ [] then
          ["RESEARCH IMPLICATIONS & FUTURE DIRECTIONS:"]
          ++ ins.recommendations.map ("• " ++ ·)
        else [])
    else
      ["I have conducted an academic literature review using available resources.",
       "As an Academic Researcher, I provide scholarly analysis,",
       "citations, and evidence-based conclusions."])
  else
    ["EXECUTIVE SUMMARY", dash40]
    ++ (if search.success && scraped ≠ [] then
      let hardware_mentions := (scraped.filter (fun c =>
        c.success && c.content ≠ "" &&
        ["hardware", "processing unit", "chip", "processor", "gpu", "cpu",
         "neural", "asic"].any (fun k => pyContains (pyLower c.content) k))).map
        (fun c => c.title)
      -- Lines 646–651 also build a local `key_findings` list that the
      -- function never reads afterwards; it contributes nothing here.
      (if pyContains (pyLower rq) "hardware" || pyContains (pyLower task) "hardware" then
        [if hardware_mentions ≠ [] then
          "Based on analysis of " ++ toString scraped.length
          ++ " academic sources, context processing does involve hardware considerations. Sources mentioning hardware implementations: "
          ++ joinComma (hardware_mentions.take 3)
        else
          "The research indicates that context processing is primarily a cognitive and computational concept, with limited direct hardware implementation requirements mentioned in current literature."]
      else [])
      ++ ["Context processing appears to be a critical cognitive function involving hippocampal-prefrontal circuits, with implications for aging, comprehension, and neurological conditions."]
    else
      ["I have processed your request to the best of my abilities.",
       "While comprehensive web research was not performed, I can provide",
       "general guidance and assistance based on my training."])

/-- Detailed-findings section, lines 670–706: present only when the
search succeeded. -/
def detailedParts (search : SearchResp) (scraped : List Scraped) : List String :=
  if search.success then
    ["DETAILED FINDINGS", dash40]
    ++ search.results.enum.flatMap (fun (j, r) =>
      [toString (j + 1) ++ ". " ++ r.title,
       "   URL: " ++ r.url,
       "   Summary: " ++ r.snippet]
      ++ (match scraped.get? j with
        | some c =>
          if c.success then
            (if c.content ≠ "" then
              let relParas := (((pySplit c.content "\n\n").filter (fun p =>
                p.length > 100 &&
                ["context", "processing", "cognitive", "neural"].any
                  (fun k => pyContains (pyLower p) k))).take 2).map (fun p =>
                    if p.length > 300 then pyTake p 300 ++ "..." else p)
              if relParas ≠ [] then
                ["   Key Insights:"] ++ relParas.map (fun p => "   • " ++ p)
              else []
            else [])
            ++ (if c.author ≠ "" then ["   Author: " ++ c.author] else [])
            ++ (if c.publishDate ≠ "" then ["   Published: " ++ c.publishDate] else [])
          else []
        | none => [])
      ++ [""])
  else []

/-- Weather-recommendation location pattern, line 730:
`(?:weather|forecast|conditions).*?(?:in|for)\s+([^.]+?)(?:\.|$|\s+Send)`. -/
def weatherRecRE : RE :=
  seqs [oneOf ["weather", "forecast", "conditions"], .starL dotAnyB,
    oneOf ["in", "for"], .plusG wsB, .grp (.plusL notDotB),
    .alt (strLit ".") (.alt .eos (seqs [.plusG wsB, strLit "send"]))]

/-- Recommendations/response section, lines 709–846. -/
def recParts (task rq : String) (search : SearchResp) (scraped : List Scraped)
    (name : String) (ins : Insights) : List String :=
  if pyContains (pyLower name) "customer" then
    ["CUSTOMER SERVICE RESPONSE", dash40, "Dear Valued Customer,", "",
     "Thank you for contacting us. I understand your concern and I'm here to help.", "",
     "Based on your request, I recommend the following actions:",
     "• I will escalate your issue to the appropriate department",
     "• You should receive a follow-up within 24-48 hours",
     "• Please keep your reference number for future correspondence",
     "• Feel free to contact us if you need additional assistance", "",
     "We appreciate your patience and value your business."]
  else if pyContains (pyLower name) "weather" then
    ["WEATHER RECOMMENDATIONS", dash40]
    ++ (if search.success then
      let location := ((reCap weatherRecRE task).map pyStrip).getD "your area"
      let hasRain := ins.key_findings.any (fun f =>
        pyContains (pyLower f) "rain" || pyContains (pyLower f) "precipitation")
      let hasWind := ins.key_findings.any (fun f => pyContains (pyLower f) "wind")
      let hasSnow := ins.key_findings.any (fun f => pyContains (pyLower f) "snow")
      let hasStorm := ins.key_findings.any (fun f => pyContains (pyLower f) "storm")
      ["Based on current weather analysis for " ++ location ++ ":", "",
       "EVENT PLANNING RECOMMENDATIONS:"]
      ++ (if hasRain then
          ["• RAIN EXPECTED - Secure covered areas and tent rentals",
           "• Provide waterproof decorations and guest seating",
           "• Have indoor backup venue options ready"] else [])
      ++ (if hasWind then
          ["• WINDY CONDITIONS - Secure all decorations and signage",
           "• Use weighted table settings and centerpieces",
           "• Consider wind-resistant setup options"] else [])
      ++ (if hasSnow then
          ["• SNOW POSSIBLE - Ensure heated indoor alternatives",
           "• Plan for guest transportation and parking",
           "• Consider postponement if severe conditions expected"] else [])
      ++ (if hasStorm then
          ["• SEVERE WEATHER ALERT - Consider event postponement",
           "• Monitor weather alerts closely",
           "• Have emergency plans in place"] else [])
      ++ (if !hasRain && !hasWind && !hasSnow && !hasStorm then
          ["• FAVORABLE CONDITIONS expected for outdoor events",
           "• Standard outdoor event preparations should suffice",
           "• Monitor conditions 24 hours before event"] else [])
      ++ ["", "GENERAL RECOMMENDATIONS:",
          "• Check weather updates 24-48 hours before your event",
          "• Have backup plans regardless of forecast",
          "• Consider guest comfort for temperature changes",
          "• Keep emergency contact information accessible"]
    else
      ["Based on your weather inquiry, here are my recommendations:",
       "• Check local weather services for real-time updates",
       "• Consider weather conditions when planning outdoor activities",
       "• Have backup plans for weather-sensitive events",
       "• Monitor weather alerts and warnings in your area", "",
       "For accurate, real-time weather data, I recommend:",
       "• Local meteorological services",
       "• Weather apps with live radar",
       "• Regional weather stations"])
  else if pyContains (pyLower name) "financial" then
    ["FINANCIAL RECOMMENDATIONS", dash40,
     "Based on your financial inquiry, here are my professional recommendations:",
     "• Diversify your investment portfolio across different asset classes",
     "• Consider your risk tolerance and investment timeline",
     "• Stay informed about market trends and economic indicators",
     "• Consult with a qualified financial advisor for personalized advice", "",
     "Important Disclaimer:",
     "This analysis is for informational purposes only and should not be",
     "considered as personalized financial advice. Please consult with",
     "a qualified financial professional before making investment decisions."]
  else if pyContains (pyLower name) "academic" then
    ["ACADEMIC CONCLUSIONS", dash40,
     "Based on the academic literature review:",
     "• Further research is needed to fully understand the implications",
     "• Current studies provide valuable insights but have limitations",
     "• Interdisciplinary approaches may yield better results",
     "• Methodological considerations should be addressed in future studies", "",
     "Recommendations for Future Research:",
     "• Longitudinal studies to track changes over time",
     "• Larger sample sizes for statistical significance",
     "• Cross-cultural validation of findings",
     "• Integration of multiple research methodologies"]
  else
    ["SYNTHESIS AND CONCLUSIONS", dash40]
    ++ (if scraped ≠ [] then
      (if pyContains (pyLower rq) "hardware" then
        ["Hardware Requirements Analysis:",
         "• Context processing is primarily implemented in biological neural networks",
         "• Current research focuses on cognitive and computational models",
         "• Hardware implementations may be relevant for AI systems but are not explicitly required",
         "• Future developments might include specialized neural processing units", ""]
      else [])
      ++ ["Key Conclusions:",
          "• Context processing is fundamental to human cognition and affects multiple domains",
          "• It involves complex neural circuitry including hippocampal-prefrontal connections",
          "• Aging and neurological conditions can significantly impact context processing",
          "• The field is active with ongoing research into mechanisms and applications"]
    else
      ["I have processed your request to the best of my abilities.",
       "While comprehensive analysis was not performed, I can provide",
       "general guidance and assistance based on my training."])

/-- Contact/closing section, lines 851–893. -/
def contactParts (name : String) : List String :=
  if pyContains (pyLower name) "customer" then
    ["CONTACT INFORMATION", dash40,
     "If you need further assistance, please contact us:",
     "• Customer Service Department",
     "• Available 24/7 for your support needs",
     "• Reference this report for faster resolution", "",
     "Best regards,", "Customer Service Team"]
  else if pyContains (pyLower name) "weather" then
    ["ADDITIONAL RESOURCES", dash40,
     "For more detailed weather information:",
     "• National Weather Service",
     "• Local meteorological departments",
     "• Weather forecasting websites and apps", "",
     "Stay weather-aware and plan accordingly!"]
  else if pyContains (pyLower name) "financial" then
    ["NEXT STEPS", dash40,
     "Consider these next steps:",
     "• Review your current financial portfolio",
     "• Consult with a certified financial planner",
     "• Stay updated on market developments",
     "• Consider your long-term financial goals", "",
     "Remember: Past performance does not guarantee future results."]
  else if pyContains (pyLower name) "academic" then
    ["RESEARCH LIMITATIONS", dash40,
     "This literature review has the following limitations:",
     "• Limited to available academic sources",
     "• May not include the most recent publications",
     "• Subject to researcher interpretation",
     "• Requires peer review for validation", "",
     "For comprehensive research, consider consulting",
     "academic databases and peer-reviewed journals."]
  else []

/-- The full `report_parts` list of `generate_comprehensive_report`. -/
def reportParts (task rq : String) (search : SearchResp) (scraped : List Scraped)
    (name typ : String) (ins : Insights) (now : String) : List String :=
  headerParts task rq search name typ now
  ++ summaryParts task rq search scraped name ins
  ++ [""]
  ++ detailedParts search scraped
  ++ recParts task rq search scraped name ins
  ++ [""]
  ++ contactParts name
  ++ ["", bar80, "Report generated by " ++ name, "Agent Type: " ++ pyUpper typ,
      "Timestamp: " ++ now, bar80]

/-- The rendered report string (line 902). -/
def generateComprehensiveReport (task rq : String) (search : SearchResp)
    (scraped : List Scraped) (name typ : String) (ins : Insights) (now : String) :
    String :=
  joinN (reportParts task rq search scraped name typ ins now)

/-! ## Pipeline driver (`execute_task_with_tools`, lines 236–457)

External collaborators are inputs: the search collaborator's response
for the derived query, the fetch collaborator as a function of the URL,
and the delivery collaborator as a function of (to, subject, body).
`sends` records the delivery invocations the run performs, so that
"invoked exactly once / not at all" is a statement about the result. -/

/-- The caller-facing result: the `return` dictionary of lines 446–457
plus the trace of delivery invocations. -/
structure PipelineResult where
  response : String
  agent_type : String
  tools_used : List String
  task_description : String
  research_results : List SearchResp
  scraped_content : List Scraped
  email_results : List EmailResp
  steps_completed : Nat
  sends : List (String × String × String)
deriving Repr

/-- Response summary, lines 418–444. -/
def responseParts (research_results : List SearchResp) (research_query : String)
    (scraped_content : List Scraped) (email_results : List EmailResp) : List String :=
  let p1 : List String :=
    match research_results with
    | [] => []
    | s :: _ =>
      if s.success then
        ["✅ Research completed successfully! Found " ++ toString s.results.length
          ++ " relevant results about '" ++ research_query ++ "'."]
        ++ (if scraped_content ≠ [] then
            ["✅ Scraped content from "
              ++ toString (scraped_content.filter (fun c => c.success)).length
              ++ " pages for comprehensive analysis."]
          else [])
        ++ (s.results.take 2).enum.flatMap (fun (j, r) =>
            ["\n" ++ toString (j + 1) ++ ". " ++ r.title, "   " ++ r.snippet])
      else
        ["❌ Research failed: " ++ s.error.getD "Unknown error"]
  let p2 : List String :=
    match email_results with
    | [] => []
    | e :: _ =>
      if e.success then
        ["✅ Comprehensive research report sent successfully to " ++ e.toAddr ++ "!"]
      else
        ["❌ Email failed: " ++ e.error.getD "Unknown error"]
  let all := p1 ++ p2
  if all = [] then ["Task completed, but no specific actions were identified."] else all

/-- The pipeline.  `searchResp` is what `firecrawl_web_search` returns
for the derived query, `scrapeFn` what `firecrawl_scrape_content`
returns per URL, `emailFn` what `send_email` returns, `now` the
timestamp, `σ` the process's set linearisation (see the analyzer). -/
def executeTaskWithTools (agent : AgentR) (task : String) (searchResp : SearchResp)
    (scrapeFn : String → Scraped) (emailFn : String → String → String → EmailResp)
    (now : String) (σ : List String → List String) : PipelineResult :=
  let sr := shouldResearch task
  let research_query := if sr then rqCore task else task
  -- line 247: the default search result before any research happened
  let search_result := if sr then searchResp else ⟨false, [], none⟩
  let research_results : List SearchResp := if sr then [searchResp] else []
  let scrapeRan := sr && searchResp.success && !searchResp.results.isEmpty
  let scraped_content : List Scraped :=
    if scrapeRan then
      (searchResp.results.filter (fun r => r.url ≠ "")).map (fun r => scrapeFn r.url)
    else []
  let emailCap := dispatchCapture task
  let steps := (if sr then 1 else 0) + (if scrapeRan then 1 else 0)
    + (if emailCap.isSome then 1 else 0)
  let emailStage :
      List EmailResp × List (String × String × String) :=
    match emailCap with
    | some addr =>
      let subject :=
        if sr && searchResp.success then
          "Comprehensive Research Report: " ++ research_query
        else agent.name ++ " - Task Completion Report"
      let ins := analyzeContentForInsights σ scraped_content agent.type research_query task
      let body := generateComprehensiveReport task research_query search_result
        scraped_content agent.name agent.type ins now
      ([emailFn addr subject body], [(addr, subject, body)])
    | none => ([], [])
  let email_results := emailStage.1
  let tools_used :=
    (if sr then ["web_search"] else [])
    ++ (if scrapeRan then ["content_scraping"] else [])
    ++ (if emailCap.isSome then ["send_email"] else [])
  { response := joinN (responseParts research_results research_query
      scraped_content email_results),
    agent_type := agent.type,
    tools_used := tools_used,
    task_description := task,
    research_results := research_results,
    scraped_content := scraped_content,
    email_results := email_results,
    steps_completed := steps,
    sends := emailStage.2 }

/-- The `/agents/execute` endpoint (`execute_agent_general`, lines
1012–1071): request validation happens before the pipeline runs; a
missing or empty task description is rejected with a 400 error. -/
def executeAgentGeneral (agentId : String) (agentLookup : Option AgentR)
    (taskDescription : String) (searchResp : SearchResp)
    (scrapeFn : String → Scraped) (emailFn : String → String → String → EmailResp)
    (now : String) (σ : List String → List String) : Except String PipelineResult :=
  if agentId = "" then .error "Agent ID is required"
  else if taskDescription = "" then .error "Task description is required"
  else
    match agentLookup with
    | none => .error "Agent not found"
    | some agent =>
      .ok (executeTaskWithTools agent taskDescription searchResp scrapeFn emailFn now σ)

/-! ## Formal statements of the claims under test -/

/-- Count of non-overlapping matches, scanning left to right
(`re.findall` semantics for our patterns). -/
def countMatchesL (re : RE) : Nat → List Char → Nat
  | 0, _ => 0
  | fuel + 1, l =>
    match reFindL re l with
    | none => 0
    | some (a, _, e) => 1 + countMatchesL re fuel (l.drop (max e (a + 1)))

/-- Number of e-mail-like substrings of the task text (non-overlapping
occurrences of `[\w\.-]+@[\w\.-]+\.\w+`). -/
def countEmailMatches (t : String) : Nat :=
  countMatchesL emailRE (t.data.length + 1) t.data

/-- The unique (leftmost) e-mail-like substring of the raw task text,
character for character. -/
def firstEmailMatch (t : String) : Option String := reCap (.grp emailRE) t

/-- Claim C1 as stated: for a task text with exactly one e-mail-like
substring, the exact substring becomes the delivery destination, the
derived query does not contain it, and the query is not the raw text. -/
def C1Statement : Prop :=
  ∀ t addr : String, countEmailMatches t = 1 → dispatchCapture t = some addr →
    firstEmailMatch t = some addr ∧ pyContains (rqFull t) addr = false ∧
      rqFull t ≠ t

/-- Claim C5 as stated: the insight buckets are equal as sets no matter
which set-iteration order the two calls to the analyzer use. -/
def C5Statement : Prop :=
  ∀ (σ₁ σ₂ : List String → List String), SetLinearizer σ₁ → SetLinearizer σ₂ →
    ∀ (scraped : List Scraped) (agent_type rq task : String),
      (∀ x, x ∈ (analyzeContentForInsights σ₁ scraped agent_type rq task).key_findings ↔
            x ∈ (analyzeContentForInsights σ₂ scraped agent_type rq task).key_findings) ∧
      (∀ x, x ∈ (analyzeContentForInsights σ₁ scraped agent_type rq task).specific_data ↔
            x ∈ (analyzeContentForInsights σ₂ scraped agent_type rq task).specific_data) ∧
      (∀ x, x ∈ (analyzeContentForInsights σ₁ scraped agent_type rq task).recommendations ↔
            x ∈ (analyzeContentForInsights σ₂ scraped agent_type rq task).recommendations) ∧
      (∀ x, x ∈ (analyzeContentForInsights σ₁ scraped agent_type rq task).summary ↔
            x ∈ (analyzeContentForInsights σ₂ scraped agent_type rq task).summary)

/-- Claim C6's weather rule as stated: any of the keywords weather,
forecast or conditions routes the task to the weather branch, whose
query is the generic fallback or a located weather query. -/
def C6Statement : Prop :=
  ∀ t : String,
    (pyContains (pyLower t) "weather" || pyContains (pyLower t) "forecast" ||
      pyContains (pyLower t) "conditions") = true →
    rqCore t = "current weather forecast" ∨
      ∃ loc, rqCore t = "current weather forecast " ++ loc

/-- Claim C7 as stated: every raw text, the empty string included, runs
through the pipeline without a fatal error, and the empty string's
query falls back to "general research query". -/
def C7Statement : Prop :=
  (∀ (ag : AgentR) (searchResp : SearchResp) (scrapeFn : String → Scraped)
      (emailFn : String → String → String → EmailResp) (now : String)
      (σ : List String → List String),
    (executeAgentGeneral "agent-1" (some ag) "" searchResp scrapeFn emailFn
      now σ).isOk = true) ∧
  rqFull "" = "general research query"

/-- Claim C10 as stated: with the customer domain tag, the analyzer
leaves key findings and summary empty and labels every entry of the
other two buckets, whatever the scraped content and task text. -/
def C10Statement : Prop :=
  ∀ (σ : List String → List String), SetLinearizer σ →
    ∀ (scraped : List Scraped) (rq task : String),
      (analyzeContentForInsights σ scraped "customer" rq task).key_findings = [] ∧
      (analyzeContentForInsights σ scraped "customer" rq task).summary = [] ∧
      (∀ e ∈ (analyzeContentForInsights σ scraped "customer" rq task).recommendations,
        ∃ r, e = "Solution: " ++ r) ∧
      (∀ e ∈ (analyzeContentForInsights σ scraped "customer" rq task).specific_data,
        ∃ r, e = "Contact Info: " ++ r)

/-- `true` iff the fragment contains no capture group. -/
def noGrpB : RE → Bool
  | .seq a b => noGrpB a && noGrpB b
  | .alt a b => noGrpB a && noGrpB b
  | .grp _ => false
  | _ => true

/-- Every character a match of the fragment can consume satisfies `p`
(for literals: every character whose lower case occurs in the literal). -/
def AllChars : RE → (Char → Bool) → Prop
  | .emp, _ => True
  | .eos, _ => True
  | .lit l, p => ∀ c : Char, c.toLower ∈ l → p c = true
  | .cls q, p => ∀ c, q c = true → p c = true
  | .plusG q, p => ∀ c, q c = true → p c = true
  | .plusL q, p => ∀ c, q c = true → p c = true
  | .starG q, p => ∀ c, q c = true → p c = true
  | .starL q, p => ∀ c, q c = true → p c = true
  | .seq a b, p => AllChars a p ∧ AllChars b p
  | .alt a b, p => AllChars a p ∧ AllChars b p
  | .grp r, p => AllChars r p

/-- The base continuation used by the search drivers. -/
def baseK : Nat → Option Res := fun j => some (none, j)

/-- The part of the dispatch pattern before the capture group. -/
def dispatchPre : RE :=
  seqs [strLit "send", .starL dotAnyB, oneOf ["to", "result to"], .plusG wsB]

/-- Whether the (lowered) task text contains an e-mail-like substring,
i.e. one matching `[\w\.-]+@[\w\.-]+\.\w+`.  The character classes of
the pattern are closed under case, so testing the lowered text is
equivalent to testing the raw text. -/
def containsEmailLike (t : String) : Bool :=
  (reFindL (.grp emailRE) (pyLower t).data).isSome

/-! ## Matcher soundness -/

theorem rangeUp_mem {a n c : Nat} (h : c ∈ rangeUp a n) : a ≤ c ∧ c ≤ a + n := by
  induction n generalizing a with
  | zero => simp [rangeUp] at h; omega
  | succ n ih =>
    simp only [rangeUp, List.mem_cons] at h
    rcases h with rfl | h
    · omega
    · have := ih h; omega

theorem rangeUp_mem_of {a n c : Nat} (h1 : a ≤ c) (h2 : c ≤ a + n) : c ∈ rangeUp a n := by
  induction n generalizing a with
  | zero => simp [rangeUp]; omega
  | succ n ih =>
    simp only [rangeUp, List.mem_cons]
    by_cases hc : c = a
    · exact Or.inl hc
    · exact Or.inr (ih (by omega) (by omega))

theorem rangeDown_mem {n c : Nat} (h : c ∈ rangeDown n) : 1 ≤ c ∧ c ≤ n := by
  induction n with
  | zero => simp [rangeDown] at h
  | succ n ih =>
    simp only [rangeDown, List.mem_cons] at h
    rcases h with rfl | h
    · omega
    · have := ih h; omega

theorem firstSome?_eq_some {f : Nat → Option Res} :
    ∀ {l : List Nat} {r : Res}, firstSome? f l = some r → ∃ c ∈ l, f c = some r := by
  intro l
  induction l with
  | nil => intro r h; simp [firstSome?] at h
  | cons c cs ih =>
    intro r h
    simp only [firstSome?] at h
    rcases hc : f c with _ | v
    · simp only [hc] at h
      obtain ⟨c', hc', hf⟩ := ih h
      exact ⟨c', List.mem_cons_of_mem _ hc', hf⟩
    · simp only [hc] at h
      exact ⟨c, List.mem_cons_self _ _, by rw [hc, h]⟩

theorem firstSome?_isSome {f : Nat → Option Res} :
    ∀ {l : List Nat} {c : Nat}, c ∈ l → (f c).isSome → (firstSome? f l).isSome := by
  intro l
  induction l with
  | nil => intro c h; simp at h
  | cons a as ih =>
    intro c hc hf
    simp only [firstSome?]
    rcases ha : f a with _ | v
    · simp only [ha]
      rcases List.mem_cons.mp hc with rfl | hmem
      · rw [ha] at hf; simp at hf
      · exact ih hmem hf
    · simp [ha]

theorem searchGo_eq_some {re : RE} {s : List Char} :
    ∀ {ps : List Nat} {i : Nat} {r : Res}, searchGo re s ps = some (i, r) →
      i ∈ ps ∧ M s re i (fun j => some (none, j)) = some r := by
  intro ps
  induction ps with
  | nil => intro i r h; simp [searchGo] at h
  | cons a as ih =>
    intro i r h
    simp only [searchGo] at h
    rcases hm : M s re a (fun j => some (none, j)) with _ | v
    · simp only [hm] at h
      obtain ⟨hmem, hM⟩ := ih h
      exact ⟨List.mem_cons_of_mem _ hmem, hM⟩
    · simp only [hm] at h
      obtain ⟨rfl, rfl⟩ : a = i ∧ v = r := by
        have := Option.some.inj h
        exact ⟨congrArg Prod.fst this, congrArg Prod.snd this⟩
      exact ⟨List.mem_cons_self _ _, hm⟩

theorem searchGo_isSome {re : RE} {s : List Char} :
    ∀ {ps : List Nat} {i : Nat}, i ∈ ps →
      (M s re i (fun j => some (none, j))).isSome → (searchGo re s ps).isSome := by
  intro ps
  induction ps with
  | nil => intro i h; simp at h
  | cons a as ih =>
    intro i hi hM
    simp only [searchGo]
    rcases hm : M s re a (fun j => some (none, j)) with _ | v
    · simp only [hm]
      rcases List.mem_cons.mp hi with rfl | hmem
      · rw [hm] at hM; simp at hM
      · exact ih hmem hM
    · simp [hm]

theorem litAt_sound {s : List Char} :
    ∀ (l : List Char) (i : Nat), i ≤ s.length → litAt s l i = true →
      i + l.length ≤ s.length ∧ ∀ x ∈ (s.drop i).take l.length, x.toLower ∈ l := by
  intro l
  induction l with
  | nil => intro i hi _; simpa using hi
  | cons c cs ih =>
    intro i hi h
    simp only [litAt] at h
    rcases hd : s.get? i with _ | d
    · simp only [hd] at h
      exact Bool.noConfusion h
    · simp only [hd, Bool.and_eq_true] at h
      obtain ⟨hdc, hrest⟩ := h
      have hlt : i < s.length := by
        obtain ⟨hlt, -⟩ := List.get?_eq_some.mp hd
        exact hlt
      obtain ⟨hlen, hchars⟩ := ih (i + 1) (by omega) hrest
      refine ⟨by simp only [List.length_cons]; omega, ?_⟩
      intro x hx
      have hdrop : s.drop i = d :: s.drop (i + 1) := by
        obtain ⟨hlt', hget⟩ := List.get?_eq_some.mp hd
        rw [List.drop_eq_getElem_cons hlt']
        exact congrArg (· :: s.drop (i + 1)) hget
      rw [hdrop] at hx
      simp only [List.length_cons, List.take_succ_cons, List.mem_cons] at hx
      rcases hx with rfl | hx
      · exact List.mem_cons.mpr (Or.inl (by simpa using hdc))
      · exact List.mem_cons_of_mem _ (hchars x hx)

theorem takeWhile_all {p : Char → Bool} :
    ∀ (l : List Char) (c : Nat), c ≤ (l.takeWhile p).length →
      ∀ x ∈ l.take c, p x = true := by
  intro l
  induction l with
  | nil => intro c _ x hx; simp at hx
  | cons a as ih =>
    intro c hc x hx
    by_cases hp : p a
    · rw [List.takeWhile_cons_of_pos hp] at hc
      rcases c with _ | c
      · simp at hx
      · simp only [List.take_succ_cons, List.mem_cons] at hx
        rcases hx with rfl | hx
        · exact hp
        · exact ih c (by simpa using hc) x hx
    · rw [List.takeWhile_cons_of_neg hp] at hc
      simp only [List.length_nil, Nat.le_zero] at hc
      subst hc
      simp at hx

theorem maxRun_le {s : List Char} {p : Char → Bool} {i : Nat} :
    maxRun s p i ≤ s.length - i := by
  unfold maxRun
  calc ((s.drop i).takeWhile p).length ≤ (s.drop i).length :=
        (List.takeWhile_sublist p).length_le
    _ = s.length - i := List.length_drop i s

theorem maxRun_chars {s : List Char} {p : Char → Bool} {i c : Nat}
    (h : c ≤ maxRun s p i) : ∀ x ∈ (s.drop i).take c, p x = true :=
  takeWhile_all (s.drop i) c h

theorem allChars_true : ∀ re : RE, AllChars re (fun _ => true) := by
  intro re
  induction re <;> simp_all [AllChars]

/-- Soundness of the matcher for group-free fragments: a successful
match starting at `i` hands the continuation an end position `j` within
bounds, returns the continuation's value unchanged, and only consumes
characters satisfying any class bound `p` of the fragment. -/
theorem M_value_span {s : List Char} {p : Char → Bool} :
    ∀ re : RE, noGrpB re = true → AllChars re p →
      ∀ (i : Nat) (k : Nat → Option Res) (res : Res), i ≤ s.length →
        M s re i k = some res →
        ∃ j, i ≤ j ∧ j ≤ s.length ∧
          (∀ x ∈ (s.drop i).take (j - i), p x = true) ∧ k j = some res := by
  intro re
  induction re with
  | emp =>
    intro _ _ i k res hi hm
    exact ⟨i, le_refl i, hi, by simp, hm⟩
  | lit l =>
    intro _ hp i k res hi hm
    simp only [M] at hm
    rcases hla : litAt s l i with _ | _
    · rw [hla] at hm; simp at hm
    · rw [hla, if_pos rfl] at hm
      obtain ⟨hlen, hchars⟩ := litAt_sound l i hi hla
      refine ⟨i + l.length, by omega, hlen, ?_, hm⟩
      intro x hx
      have : x ∈ (s.drop i).take l.length := by
        have he : i + l.length - i = l.length := by omega
        rwa [he] at hx
      exact hp x (hchars x this)
  | cls q =>
    intro _ hp i k res hi hm
    simp only [M] at hm
    rcases hd : s.get? i with _ | c
    · simp only [hd] at hm
      exact Option.noConfusion hm
    · simp only [hd] at hm
      rcases hq : q c with _ | _
      · rw [hq] at hm; simp at hm
      · rw [hq, if_pos rfl] at hm
        obtain ⟨hlt, hget⟩ := List.get?_eq_some.mp hd
        refine ⟨i + 1, by omega, by omega, ?_, hm⟩
        intro x hx
        have hdrop : s.drop i = c :: s.drop (i + 1) := by
          rw [List.drop_eq_getElem_cons hlt]
          exact congrArg (· :: s.drop (i + 1)) hget
        have he : i + 1 - i = 1 := by omega
        rw [he, hdrop] at hx
        simp only [List.take_succ_cons, List.take_zero, List.mem_singleton] at hx
        subst hx
        exact hp x hq
  | seq a b iha ihb =>
    intro hg hp i k res hi hm
    simp only [noGrpB, Bool.and_eq_true] at hg
    obtain ⟨hpa, hpb⟩ : AllChars a p ∧ AllChars b p := hp
    simp only [M] at hm
    obtain ⟨j₁, hij₁, hj₁, span₁, hk₁⟩ := iha hg.1 hpa i _ res hi hm
    obtain ⟨j₂, hij₂, hj₂, span₂, hk₂⟩ := ihb hg.2 hpb j₁ _ res hj₁ hk₁
    refine ⟨j₂, by omega, hj₂, ?_, hk₂⟩
    intro x hx
    have hsplit : (s.drop i).take (j₂ - i)
        = (s.drop i).take (j₁ - i) ++ ((s.drop i).drop (j₁ - i)).take (j₂ - j₁) := by
      rw [← List.take_add]
      congr 1
      omega
    have hdd : (s.drop i).drop (j₁ - i) = s.drop j₁ := by
      rw [List.drop_drop]
      congr 1
      omega
    rw [hsplit, hdd] at hx
    rcases List.mem_append.mp hx with hx | hx
    · exact span₁ x hx
    · exact span₂ x hx
  | alt a b iha ihb =>
    intro hg hp i k res hi hm
    simp only [noGrpB, Bool.and_eq_true] at hg
    obtain ⟨hpa, hpb⟩ : AllChars a p ∧ AllChars b p := hp
    simp only [M] at hm
    rcases hma : M s a i k with _ | v
    · rw [hma] at hm
      exact ihb hg.2 hpb i k res hi hm
    · rw [hma] at hm
      obtain rfl : v = res := Option.some.inj hm
      exact iha hg.1 hpa i k _ hi hma
  | grp r _ =>
    intro hg _ _ _ _ _ _
    simp [noGrpB] at hg
  | eos =>
    intro _ _ i k res hi hm
    simp only [M] at hm
    by_cases hcond : i = s.length ∨ (i + 1 = s.length ∧ s.get? i = some '\n')
    · rw [if_pos hcond] at hm
      exact ⟨i, le_refl i, hi, by simp, hm⟩
    · rw [if_neg hcond] at hm
      simp at hm
  | plusG q =>
    intro _ hp i k res hi hm
    simp only [M] at hm
    obtain ⟨c, hc, hk⟩ := firstSome?_eq_some hm
    obtain ⟨hc1, hc2⟩ := rangeDown_mem hc
    have hle := maxRun_le (s := s) (p := q) (i := i)
    refine ⟨i + c, by omega, by omega, ?_, hk⟩
    intro x hx
    have he : i + c - i = c := by omega
    rw [he] at hx
    exact hp x (maxRun_chars hc2 x hx)
  | plusL q =>
    intro _ hp i k res hi hm
    simp only [M] at hm
    have hle := maxRun_le (s := s) (p := q) (i := i)
    rcases hmr : maxRun s q i with _ | m
    · rw [hmr] at hm
      obtain ⟨c, hc, -⟩ := firstSome?_eq_some hm
      simp at hc
    · rw [hmr] at hm
      obtain ⟨c, hc, hk⟩ := firstSome?_eq_some hm
      obtain ⟨hc1, hc2⟩ := rangeUp_mem hc
      refine ⟨i + c, by omega, by omega, ?_, hk⟩
      intro x hx
      have he : i + c - i = c := by omega
      rw [he] at hx
      exact hp x (maxRun_chars (by omega) x hx)
  | starG q =>
    intro _ hp i k res hi hm
    simp only [M] at hm
    have hle := maxRun_le (s := s) (p := q) (i := i)
    obtain ⟨c, hc, hk⟩ := firstSome?_eq_some hm
    have hc2 : c ≤ maxRun s q i := by
      rcases List.mem_append.mp hc with hc | hc
      · exact (rangeDown_mem hc).2
      · simp only [List.mem_singleton] at hc; omega
    refine ⟨i + c, by omega, by omega, ?_, hk⟩
    intro x hx
    have he : i + c - i = c := by omega
    rw [he] at hx
    exact hp x (maxRun_chars hc2 x hx)
  | starL q =>
    intro _ hp i k res hi hm
    simp only [M] at hm
    have hle := maxRun_le (s := s) (p := q) (i := i)
    obtain ⟨c, hc, hk⟩ := firstSome?_eq_some hm
    obtain ⟨-, hc2⟩ := rangeUp_mem hc
    refine ⟨i + c, by omega, by omega, ?_, hk⟩
    intro x hx
    have he : i + c - i = c := by omega
    rw [he] at hx
    exact hp x (maxRun_chars (by omega) x hx)

/-- `M_value_span` without the character bound. -/
theorem M_value {s : List Char} {re : RE} {i : Nat} {k : Nat → Option Res} {res : Res}
    (hg : noGrpB re = true) (hi : i ≤ s.length) (hm : M s re i k = some res) :
    ∃ j, i ≤ j ∧ j ≤ s.length ∧ k j = some res := by
  obtain ⟨j, h1, h2, -, h4⟩ :=
    M_value_span re hg (allChars_true re) i k res hi hm
  exact ⟨j, h1, h2, h4⟩

/-- A successful match of `pre ⬝ (grp g) ⬝ term` against the base
continuation captures a span of `s` all of whose characters satisfy any
class bound of `g`. -/
theorem M_cap_class {s : List Char} {pre g term : RE} {p : Char → Bool}
    (hpre : noGrpB pre = true) (hg : noGrpB g = true) (hterm : noGrpB term = true)
    (hgp : AllChars g p) {i : Nat} {res : Res} (hi : i ≤ s.length)
    (hm : M s pre i (fun j => M s (.seq (.grp g) term) j baseK) = some res) :
    ∃ a b, res.1 = some (a, b) ∧ a ≤ b ∧ b ≤ s.length ∧
      ∀ x ∈ (s.drop a).take (b - a), p x = true := by
  obtain ⟨j, hij, hjlen, hkj⟩ := M_value hpre hi hm
  have hkj' : M s g j
      (fun j' => (M s term j' baseK).map
        (fun r => (r.1.orElse (fun _ => some (j, j')), r.2))) = some res := hkj
  obtain ⟨j', hjj', hj'len, span, hK⟩ :=
    M_value_span g hg hgp j _ res hjlen hkj'
  obtain ⟨r₀, hr₀, hres⟩ := Option.map_eq_some'.mp hK
  obtain ⟨j'', -, -, hbase⟩ := M_value hterm hj'len hr₀
  have hr₀1 : r₀.1 = none := by
    have : (none, j'') = r₀ := Option.some.inj hbase
    rw [← this]
  refine ⟨j, j', ?_, hjj', hj'len, span⟩
  rw [← hres, hr₀1]
  rfl

/-- Any captured group is a contiguous piece of the searched string. -/
theorem capSlice_infix (s : List Char) (a m : Nat) : (s.drop a).take m <:+: s := by
  refine ⟨s.take a, (s.drop a).drop m, ?_⟩
  rw [List.append_assoc, List.take_append_drop m (s.drop a), List.take_append_drop a s]

/-- `reCap` through the class bound: every character of the captured
string satisfies `p`, and the capture is an infix of the input. -/
theorem reCap_class {re a g b : RE} {p : Char → Bool}
    (hsplit : ∀ (s : List Char) (i : Nat) (k : Nat → Option Res),
      M s re i k = M s a i (fun j => M s (.seq (.grp g) b) j k))
    (hpre : noGrpB a = true) (hg : noGrpB g = true) (hterm : noGrpB b = true)
    (hgp : AllChars g p) {s : String} {cap : String}
    (h : reCap re s = some cap) :
    (∀ x ∈ cap.data, p x = true) ∧ cap.data <:+: s.data := by
  unfold reCap at h
  rcases hf : reFindL re s.data with _ | ⟨i, ores, e⟩
  · rw [hf] at h; exact absurd h (by simp)
  · rw [hf] at h
    obtain ⟨hmem, hM⟩ := searchGo_eq_some hf
    have hi : i ≤ s.data.length := by
      have := rangeUp_mem hmem; omega
    rw [hsplit] at hM
    obtain ⟨a, b, hres1, hab, hblen, span⟩ := M_cap_class hpre hg hterm hgp hi hM
    have hores : ores = some (a, b) := hres1
    subst hores
    obtain rfl : (⟨(s.data.drop a).take (b - a)⟩ : String) = cap := Option.some.inj h
    exact ⟨span, capSlice_infix s.data a (b - a)⟩

/-- Anchored variant of `reCap_class`. -/
theorem reCapAnch_class {re a g b : RE} {p : Char → Bool}
    (hsplit : ∀ (s : List Char) (i : Nat) (k : Nat → Option Res),
      M s re i k = M s a i (fun j => M s (.seq (.grp g) b) j k))
    (hpre : noGrpB a = true) (hg : noGrpB g = true) (hterm : noGrpB b = true)
    (hgp : AllChars g p) {s : String} {cap : String}
    (h : reCapAnch re s = some cap) :
    (∀ x ∈ cap.data, p x = true) ∧ cap.data <:+: s.data := by
  unfold reCapAnch reFindAnch at h
  rcases hf : M s.data re 0 (fun j => some (none, j)) with _ | res
  · rw [hf] at h; exact absurd h (by simp)
  · rw [hf] at h
    rw [hsplit] at hf
    obtain ⟨a, b, hres1, hab, hblen, span⟩ :=
      M_cap_class hpre hg hterm hgp (Nat.zero_le _) hf
    have hores : res.1 = some (a, b) := hres1
    have h2 : some (⟨(s.data.drop a).take (b - a)⟩ : String) = some cap := by
      rw [← h]
      rcases res with ⟨ores, e⟩
      simp only at hores
      subst hores
      rfl
    obtain rfl := Option.some.inj h2
    exact ⟨span, capSlice_infix s.data a (b - a)⟩

/-- Only `'.'` lower-cases to `'.'`. -/
theorem toLower_eq_dot {c : Char} (h : c.toLower = '.') : c = '.' := by
  unfold Char.toLower at h
  simp only at h
  by_cases hc : c.toNat ≥ 65 ∧ c.toNat ≤ 90
  · rw [if_pos hc] at h
    exfalso
    have h2 := congrArg Char.toNat h
    rw [Char.ofNat, dif_pos (by omega : Nat.isValidChar (c.toNat + 32))] at h2
    simp only [Char.ofNatAux, Char.toNat, UInt32.toNat, BitVec.toNat_ofNatLt] at h2
    have hdot : ('.' : Char).val.toBitVec.toNat = 46 := rfl
    have hceq : c.toNat = c.val.toBitVec.toNat := rfl
    omega
  · rwa [if_neg hc] at h

/-- A character of the string sitting strictly inside the window
`[i, j)` belongs to the window slice. -/
theorem get?_mem_window {s : List Char} {i m j : Nat} {d : Char}
    (hd : s.get? m = some d) (h1 : i ≤ m) (h2 : m < j) :
    d ∈ (s.drop i).take (j - i) := by
  have hidx : ((s.drop i).take (j - i)).get? (m - i) = some d := by
    rw [List.get?_take (by omega : m - i < j - i), List.get?_drop]
    have : i + (m - i) = m := by omega
    rw [this]
    exact hd
  exact List.get?_mem hidx

/-- Inversion for literal fragments. -/
theorem M_lit_inv {s : List Char} {l : List Char} {i : Nat} {k : Nat → Option Res}
    {res : Res} (hm : M s (.lit l) i k = some res) :
    litAt s l i = true ∧ k (i + l.length) = some res := by
  simp only [M] at hm
  rcases hla : litAt s l i with _ | _
  · rw [hla] at hm; simp at hm
  · rw [hla, if_pos rfl] at hm; exact ⟨rfl, hm⟩

/-- A match of the captured e-mail pattern always consumes a literal
dot: the capture span contains `'.'`. -/
theorem emailGrp_cap_dot {s : List Char} {i : Nat} {res : Res} (hi : i ≤ s.length)
    (hm : M s (.grp emailRE) i baseK = some res) :
    ∃ a b, res.1 = some (a, b) ∧ a ≤ b ∧ b ≤ s.length ∧
      '.' ∈ (s.drop a).take (b - a) := by
  have hm' : M s emailRE i
      (fun j => (baseK j).map
        (fun r => (r.1.orElse (fun _ => some (i, j)), r.2))) = some res := hm
  have hm2 : M s (.plusG emailB) i
      (fun j₁ => M s (seqs [strLit "@", .plusG emailB, strLit ".", .plusG wordB]) j₁
        (fun j => (baseK j).map
          (fun r => (r.1.orElse (fun _ => some (i, j)), r.2)))) = some res := hm'
  obtain ⟨j₁, hij₁, hj₁, hk₁⟩ := M_value (by rfl) hi hm2
  have hk₁' : M s (strLit "@") j₁
      (fun j₂ => M s (seqs [.plusG emailB, strLit ".", .plusG wordB]) j₂
        (fun j => (baseK j).map
          (fun r => (r.1.orElse (fun _ => some (i, j)), r.2)))) = some res := hk₁
  obtain ⟨j₂, hj₁j₂, hj₂, hk₂⟩ := M_value (by rfl) hj₁ hk₁'
  have hk₂' : M s (.plusG emailB) j₂
      (fun j₃ => M s (seqs [strLit ".", .plusG wordB]) j₃
        (fun j => (baseK j).map
          (fun r => (r.1.orElse (fun _ => some (i, j)), r.2)))) = some res := hk₂
  obtain ⟨j₃, hj₂j₃, hj₃, hk₃⟩ := M_value (by rfl) hj₂ hk₂'
  have hk₃' : M s (.lit ['.']) j₃
      (fun j₄ => M s (.plusG wordB) j₄
        (fun j => (baseK j).map
          (fun r => (r.1.orElse (fun _ => some (i, j)), r.2)))) = some res := hk₃
  obtain ⟨hla, hk₄pre⟩ := M_lit_inv hk₃'
  have hdot : ∃ d, s.get? j₃ = some d ∧ d = '.' := by
    simp only [litAt] at hla
    rcases hd : s.get? j₃ with _ | d
    · rw [hd] at hla; exact absurd hla (by simp)
    · rw [hd] at hla
      simp only [Bool.and_eq_true, beq_iff_eq] at hla
      exact ⟨d, rfl, toLower_eq_dot hla.1⟩
  obtain ⟨d, hd, rfl⟩ := hdot
  have hk₄pre' : M s (.plusG wordB) (j₃ + 1)
      (fun j => (baseK j).map
        (fun r => (r.1.orElse (fun _ => some (i, j)), r.2))) = some res := hk₄pre
  have hj₃lt : j₃ < s.length := by
    obtain ⟨hlt, -⟩ := List.get?_eq_some.mp hd
    exact hlt
  obtain ⟨j₄, hj₃j₄, hj₄, hk₄⟩ := M_value (by rfl) (by omega) hk₄pre'
  have hres : res = (some (i, j₄), j₄) := (Option.some.inj hk₄).symm
  refine ⟨i, j₄, by rw [hres], by omega, hj₄, ?_⟩
  exact get?_mem_window hd (by omega) (by omega)

/-- Unanchored `re.sub` with the empty replacement only ever removes
characters. -/
theorem mem_subAllL {re : RE} :
    ∀ (fuel : Nat) (l : List Char) (x : Char), x ∈ subAllL re fuel l → x ∈ l := by
  intro fuel
  induction fuel with
  | zero => intro l x h; simpa [subAllL] using h
  | succ n ih =>
    intro l x h
    simp only [subAllL] at h
    rcases hf : reFindL re l with _ | ⟨a, r, e⟩
    · rw [hf] at h; exact h
    · rw [hf] at h
      rcases List.mem_append.mp h with h | h
      · exact List.mem_of_mem_take h
      · exact List.mem_of_mem_drop (ih _ x h)

/-- `str.strip()` only ever removes characters. -/
theorem mem_pyStripL {l : List Char} {x : Char} (h : x ∈ pyStripL l) : x ∈ l := by
  unfold pyStripL at h
  rw [List.mem_reverse] at h
  have h1 := (List.dropWhile_sublist wsB).mem h
  rw [List.mem_reverse] at h1
  exact (List.dropWhile_sublist wsB).mem h1

theorem mem_pyStrip {s : String} {x : Char} (h : x ∈ (pyStrip s).data) : x ∈ s.data :=
  mem_pyStripL h

theorem mem_pySub {re : RE} {s : String} {x : Char} (h : x ∈ (pySub re s).data) :
    x ∈ s.data :=
  mem_subAllL _ _ x h

/-- A destination captured by the dispatch pattern contains a literal
dot and occurs verbatim in the lowered task text. -/
theorem dispatchCapture_dot {t addr : String} (h : dispatchCapture t = some addr) :
    '.' ∈ addr.data ∧ addr.data <:+: (pyLower t).data := by
  unfold dispatchCapture reCap at h
  rcases hf : reFindL dispatchRE (pyLower t).data with _ | ⟨i, ores, e⟩
  · rw [hf] at h; exact absurd h (by simp)
  · rw [hf] at h
    obtain ⟨hmem, hM⟩ := searchGo_eq_some hf
    have hi : i ≤ (pyLower t).data.length := by
      have := rangeUp_mem hmem; omega
    have hM' : M (pyLower t).data dispatchPre i
        (fun j => M (pyLower t).data (.grp emailRE) j baseK) = some (ores, e) := hM
    obtain ⟨j, hij, hjlen, hkj⟩ := M_value (by rfl) hi hM'
    obtain ⟨a, b, hres1, hab, hblen, hdotmem⟩ := emailGrp_cap_dot hjlen hkj
    have hores : ores = some (a, b) := hres1
    subst hores
    obtain rfl : (⟨((pyLower t).data.drop a).take (b - a)⟩ : String) = addr :=
      Option.some.inj h
    exact ⟨hdotmem, capSlice_infix _ a (b - a)⟩

/-- If the dispatch pattern fires, the task text contains an e-mail-like
substring. -/
theorem dispatch_implies_emailLike {t addr : String}
    (h : dispatchCapture t = some addr) : containsEmailLike t = true := by
  unfold dispatchCapture reCap at h
  rcases hf : reFindL dispatchRE (pyLower t).data with _ | ⟨i, ores, e⟩
  · rw [hf] at h; exact absurd h (by simp)
  · obtain ⟨hmem, hM⟩ := searchGo_eq_some hf
    have hi : i ≤ (pyLower t).data.length := by
      have := rangeUp_mem hmem; omega
    have hM' : M (pyLower t).data dispatchPre i
        (fun j => M (pyLower t).data (.grp emailRE) j baseK) = some (ores, e) := hM
    obtain ⟨j, hij, hjlen, hkj⟩ := M_value (by rfl) hi hM'
    unfold containsEmailLike reFindL
    have hjmem : j ∈ rangeUp 0 (pyLower t).data.length :=
      rangeUp_mem_of (Nat.zero_le _) (by omega)
    have hsome : (M (pyLower t).data (.grp emailRE) j
        (fun j' => some (none, j'))).isSome := by
      show (M (pyLower t).data (.grp emailRE) j baseK).isSome
      rw [hkj]
      rfl
    exact searchGo_isSome hjmem hsome

/-! ## The derived research query never contains a dot

Every capture of the extraction patterns comes from `[^.?]` classes (or,
for the financial pattern 2, class runs around dot-free literals), the
post-processing only removes characters, and every fallback query is a
dot-free constant.  Since an e-mail-like substring must contain a
literal dot, the derived query can never contain the detected address —
the heart of the address-stripping invariant. -/

theorem lit_notDotQ {l : List Char} (hd : '.' ∉ l) (hq : '?' ∉ l) :
    ∀ c : Char, c.toLower ∈ l → notDotQB c = true := by
  intro c hc
  by_cases h1 : c = '.'
  · subst h1
    rw [show ('.' : Char).toLower = '.' from by decide] at hc
    exact absurd hc hd
  · by_cases h2 : c = '?'
    · subst h2
      rw [show ('?' : Char).toLower = '?' from by decide] at hc
      exact absurd hc hq
    · simp [notDotQB, bne, h1, h2]

/-- `AllChars` for the group of financial pattern 2. -/
theorem finRE2_grp_allChars :
    AllChars (seqs [.starL notDotQB,
      oneOf ["investment", "stock", "market", "financial"], .starL notDotQB])
      notDotQB := by
  refine ⟨fun c h => h, ⟨?_, ?_, ?_, ?_⟩, fun c h => h⟩
  all_goals exact lit_notDotQ (by decide) (by decide)

theorem weatherRE1_cap {s cap : String} (h : reCap weatherRE1 s = some cap) :
    ∀ x ∈ cap.data, notDotQB x = true :=
  (reCap_class (a := seqs [oneOf ["weather", "forecast", "conditions"],
      .starL dotAnyB, oneOf ["in", "for", "at"], .plusG wsB])
    (g := .plusL notDotQB) (b := termWords "for" "event")
    (fun _ _ _ => rfl) rfl rfl rfl (fun c h => h) h).1

theorem weatherRE2_cap {s cap : String} (h : reCap weatherRE2 s = some cap) :
    ∀ x ∈ cap.data, notDotQB x = true :=
  (reCap_class (a := seqs [oneOf ["outdoor", "event"], .starL dotAnyB,
      oneOf ["in", "at"], .plusG wsB])
    (g := .plusL notDotQB)
    (b := .alt (strLit "?") (.alt (strLit ".")
      (.alt (seqs [.plusG wsB, strLit "plan"]) .eos)))
    (fun _ _ _ => rfl) rfl rfl rfl (fun c h => h) h).1

theorem weatherRE3_cap {s cap : String} (h : reCap weatherRE3 s = some cap) :
    ∀ x ∈ cap.data, notDotQB x = true :=
  (reCap_class (a := seqs [oneOf ["plan", "planning"], .starL dotAnyB,
      oneOf ["in", "at", "for"], .plusG wsB])
    (g := .plusL notDotQB)
    (b := .alt (strLit "?") (.alt (strLit ".")
      (.alt (seqs [.plusG wsB, strLit "event"]) .eos)))
    (fun _ _ _ => rfl) rfl rfl rfl (fun c h => h) h).1

theorem finRE1_cap {s cap : String} (h : reCap finRE1 s = some cap) :
    ∀ x ∈ cap.data, notDotQB x = true :=
  (reCap_class (a := seqs [oneOf ["investment opportunities", "opportunities",
      "investing", "invest"], .plusG wsB, oneOf ["in", "for"], .plusG wsB])
    (g := .plusL notDotQB) (b := termWords "research" "research")
    (fun _ _ _ => rfl) rfl rfl rfl (fun c h => h) h).1

theorem finRE2_cap {s cap : String} (h : reCap finRE2 s = some cap) :
    ∀ x ∈ cap.data, notDotQB x = true :=
  (reCap_class (a := seqs [oneOf ["best", "good", "top"], .plusG wsB])
    (g := seqs [.starL notDotQB,
      oneOf ["investment", "stock", "market", "financial"], .starL notDotQB])
    (b := termWords "research" "research")
    (fun _ _ _ => rfl) rfl rfl rfl finRE2_grp_allChars h).1

theorem finRE3_cap {s cap : String} (h : reCap finRE3 s = some cap) :
    ∀ x ∈ cap.data, notDotQB x = true :=
  (reCap_class (a := seqs [oneOf ["analyze", "analysis", "research", "trends"],
      .plusG wsB, oneOf ["of", "in", "on", "for"], .plusG wsB])
    (g := .plusL notDotQB) (b := termWords "research" "research")
    (fun _ _ _ => rfl) rfl rfl rfl (fun c h => h) h).1

theorem finRE4_cap {s cap : String} (h : reCap finRE4 s = some cap) :
    ∀ x ∈ cap.data, notDotQB x = true :=
  (reCap_class (a := seqs [oneOf ["financial", "market", "stock", "investment"],
      .plusG wsB])
    (g := .plusL notDotQB) (b := termWords "research" "research")
    (fun _ _ _ => rfl) rfl rfl rfl (fun c h => h) h).1

theorem acadRE1_cap {s cap : String} (h : reCap acadRE1 s = some cap) :
    ∀ x ∈ cap.data, notDotQB x = true :=
  (reCap_class (a := seqs [oneOf ["literature review", "review", "research",
      "study", "analysis"], .plusG wsB, oneOf ["on", "of", "about", "regarding"],
      .plusG wsB])
    (g := .plusL notDotQB) (b := termWords "send" "send")
    (fun _ _ _ => rfl) rfl rfl rfl (fun c h => h) h).1

theorem acadRE2_cap {s cap : String} (h : reCap acadRE2 s = some cap) :
    ∀ x ∈ cap.data, notDotQB x = true :=
  (reCap_class (a := seqs [oneOf ["applications", "uses", "role"], .plusG wsB,
      oneOf ["of", "in"], .plusG wsB])
    (g := .plusL notDotQB) (b := termWords "send" "send")
    (fun _ _ _ => rfl) rfl rfl rfl (fun c h => h) h).1

theorem acadRE3_cap {s cap : String} (h : reCap acadRE3 s = some cap) :
    ∀ x ∈ cap.data, notDotQB x = true :=
  (reCap_class (a := seqs [oneOf ["machine learning", "ai",
      "artificial intelligence"], .plusG wsB, oneOf ["in", "for", "applications in"],
      .plusG wsB])
    (g := .plusL notDotQB) (b := termWords "send" "send")
    (fun _ _ _ => rfl) rfl rfl rfl (fun c h => h) h).1

theorem topicRE1_cap {s cap : String} (h : reCap topicRE1 s = some cap) :
    ∀ x ∈ cap.data, notDotQB x = true :=
  (reCap_class (a := seqs [oneOf ["about", "on", "regarding", "for"], .plusG wsB])
    (g := .plusL notDotQB) (b := termWords "send" "send")
    (fun _ _ _ => rfl) rfl rfl rfl (fun c h => h) h).1

theorem topicRE2_cap {s cap : String} (h : reCapAnch topicRE2 s = some cap) :
    ∀ x ∈ cap.data, notDotQB x = true :=
  (reCapAnch_class (a := .emp)
    (g := .plusL notDotQB) (b := termWords "send" "send")
    (fun _ _ _ => rfl) rfl rfl rfl (fun c h => h) h).1

/-- The stripped location the weather branch uses is dot-free. -/
theorem weatherLocation_chars {t loc : String} (h : weatherLocation t = some loc) :
    ∀ x ∈ loc.data, notDotQB x = true := by
  unfold weatherLocation at h
  rcases h1 : reCap weatherRE1 t with _ | g
  · rw [h1] at h
    rcases h2 : reCap weatherRE2 t with _ | g
    · rw [h2] at h
      obtain ⟨g, hg, rfl⟩ := Option.map_eq_some'.mp h
      exact fun x hx => weatherRE3_cap hg x (mem_pyStrip hx)
    · rw [h2] at h
      obtain rfl : pyStrip g = loc := Option.some.inj h
      exact fun x hx => weatherRE2_cap h2 x (mem_pyStrip hx)
  · rw [h1] at h
    obtain rfl : pyStrip g = loc := Option.some.inj h
    exact fun x hx => weatherRE1_cap h1 x (mem_pyStrip hx)

/-- Accepted financial extracts are dot-free and longer than 3. -/
theorem finTry_inv {re : RE} {clean e : String}
    (hc : ∀ {cap : String}, reCap re clean = some cap → ∀ x ∈ cap.data, notDotQB x = true)
    (h : finTry re clean = some e) :
    (∀ x ∈ e.data, notDotQB x = true) ∧ 3 < e.length := by
  unfold finTry at h
  rcases h1 : reCap re clean with _ | g
  · rw [h1] at h; exact absurd h (by simp)
  · simp only [h1] at h
    split at h
    · next hguard =>
        obtain rfl := Option.some.inj h
        refine ⟨fun x hx => hc h1 x (mem_pyStrip (mem_pySub hx)), ?_⟩
        simp only [Bool.and_eq_true] at hguard
        simpa using hguard.1
    · exact absurd h (by simp)

theorem finExtract_inv {clean e : String} (h : finExtract clean = some e) :
    (∀ x ∈ e.data, notDotQB x = true) ∧ 3 < e.length := by
  unfold finExtract at h
  rcases h1 : finTry finRE1 clean with _ | v
  all_goals rw [h1] at h
  · simp only [Option.orElse] at h
    rcases h2 : finTry finRE2 clean with _ | v
    all_goals rw [h2] at h
    · simp only [Option.orElse] at h
      rcases h3 : finTry finRE3 clean with _ | v
      all_goals rw [h3] at h
      · simp only [Option.orElse] at h
        exact finTry_inv (fun hg => finRE4_cap hg) h
      · obtain rfl := Option.some.inj h
        exact finTry_inv (fun hg => finRE3_cap hg) h3
    · obtain rfl := Option.some.inj h
      exact finTry_inv (fun hg => finRE2_cap hg) h2
  · obtain rfl := Option.some.inj h
    exact finTry_inv (fun hg => finRE1_cap hg) h1

/-- Accepted academic extracts are dot-free and longer than 3. -/
theorem acadTry_inv {re : RE} {clean e : String}
    (hc : ∀ {cap : String}, reCap re clean = some cap → ∀ x ∈ cap.data, notDotQB x = true)
    (h : acadTry re clean = some e) :
    (∀ x ∈ e.data, notDotQB x = true) ∧ 3 < e.length := by
  unfold acadTry at h
  rcases h1 : reCap re clean with _ | g
  · rw [h1] at h; exact absurd h (by simp)
  · simp only [h1] at h
    split at h
    · next hguard =>
        obtain rfl := Option.some.inj h
        exact ⟨fun x hx => hc h1 x (mem_pyStrip (mem_pySub hx)), by simpa using hguard⟩
    · exact absurd h (by simp)

theorem acadExtract_inv {clean e : String} (h : acadExtract clean = some e) :
    (∀ x ∈ e.data, notDotQB x = true) ∧ 3 < e.length := by
  unfold acadExtract at h
  rcases h1 : acadTry acadRE1 clean with _ | v
  all_goals rw [h1] at h
  · simp only [Option.orElse] at h
    rcases h2 : acadTry acadRE2 clean with _ | v
    all_goals rw [h2] at h
    · simp only [Option.orElse] at h
      exact acadTry_inv (fun hg => acadRE3_cap hg) h
    · obtain rfl := Option.some.inj h
      exact acadTry_inv (fun hg => acadRE2_cap hg) h2
  · obtain rfl := Option.some.inj h
    exact acadTry_inv (fun hg => acadRE1_cap hg) h1

/-- Accepted generic-topic extracts are dot-free and longer than 3. -/
theorem topicTry_inv {cap' : Option String} {e : String}
    (hc : ∀ {cap : String}, cap' = some cap → ∀ x ∈ cap.data, notDotQB x = true)
    (h : topicTry cap' = some e) :
    (∀ x ∈ e.data, notDotQB x = true) ∧ 3 < e.length := by
  unfold topicTry at h
  rcases h1 : cap' with _ | g
  · rw [h1] at h; exact absurd h (by simp)
  · simp only [h1] at h
    split at h
    · next hguard =>
        obtain rfl := Option.some.inj h
        exact ⟨fun x hx => hc h1 x (mem_pyStrip hx), by simpa using hguard⟩
    · exact absurd h (by simp)

theorem topicExtract_inv {clean e : String} (h : topicExtract clean = some e) :
    (∀ x ∈ e.data, notDotQB x = true) ∧ 3 < e.length := by
  unfold topicExtract at h
  rcases h1 : topicTry (reCap topicRE1 clean) with _ | v
  all_goals rw [h1] at h
  · simp only [Option.orElse] at h
    exact topicTry_inv (fun hg => topicRE2_cap hg) h
  · obtain rfl := Option.some.inj h
    exact topicTry_inv (fun hg => topicRE1_cap hg) h1

/-- The derived research query is dot-free (and question-mark-free). -/
theorem rqCore_notDotQ (t : String) : ∀ x ∈ (rqCore t).data, notDotQB x = true := by
  unfold rqCore
  cases hw : pyContains (pyLower t) "weather" || pyContains (pyLower t) "forecast" with
  | true =>
    simp only [hw, if_true]
    rcases hloc : weatherLocation t with _ | loc
    · simp only [hloc]
      intro x hx; revert hx; revert x; decide
    · simp only [hloc]
      by_cases hne : loc ≠ ""
      · rw [if_pos hne]
        intro x hx
        rw [String.data_append] at hx
        rcases List.mem_append.mp hx with hx2 | hx2
        · exact (show ∀ y ∈ ("current weather forecast " : String).data,
            notDotQB y = true by decide) x hx2
        · exact weatherLocation_chars hloc x hx2
      · rw [if_neg hne]
        intro x hx; revert hx; revert x; decide
  | false =>
    simp only [hw, Bool.false_eq_true, if_false]
    cases hf : ["investment", "financial", "market", "stock", "cryptocurrency"].any
        (fun k => pyContains (pyLower t) k) with
    | true =>
      simp only [hf, if_true]
      rcases hfe : finExtract (cleanTaskOf t) with _ | e
      · simp only [hfe, Option.getD]
        intro x hx; revert hx; revert x; decide
      · simp only [hfe, Option.getD]
        exact (finExtract_inv hfe).1
    | false =>
      simp only [hf, Bool.false_eq_true, if_false]
      cases ha : ["literature", "academic", "research", "study", "analysis"].any
          (fun k => pyContains (pyLower t) k) with
      | true =>
        simp only [ha, if_true]
        rcases hae : acadExtract (cleanTaskOf t) with _ | e
        · simp only [hae, Option.getD]
          intro x hx; revert hx; revert x; decide
        · simp only [hae, Option.getD]
          exact (acadExtract_inv hae).1
      | false =>
        simp only [ha, Bool.false_eq_true, if_false]
        rcases hte : topicExtract (cleanTaskOf t) with _ | e
        · simp only [hte, Option.getD]
          intro x hx; revert hx; revert x; decide
        · simp only [hte, Option.getD]
          exact (topicExtract_inv hte).1

/-- The derived research query is never empty. -/
theorem rqCore_ne_empty (t : String) : rqCore t ≠ "" := by
  have hlen : ∀ (u : String), 0 < u.data.length → u ≠ "" := by
    intro u hu he
    rw [he] at hu
    simp at hu
  unfold rqCore
  cases hw : pyContains (pyLower t) "weather" || pyContains (pyLower t) "forecast" with
  | true =>
    simp only [hw, if_true]
    rcases hloc : weatherLocation t with _ | loc
    · simp only [hloc]
      decide
    · simp only [hloc]
      by_cases hne : loc ≠ ""
      · rw [if_pos hne]
        intro he
        have := congrArg (fun (u : String) => u.data) he
        simp only [String.data_append] at this
        exact absurd this (by simp)
      · rw [if_neg hne]
        decide
  | false =>
    simp only [hw, Bool.false_eq_true, if_false]
    cases hf : ["investment", "financial", "market", "stock", "cryptocurrency"].any
        (fun k => pyContains (pyLower t) k) with
    | true =>
      simp only [hf, if_true]
      rcases hfe : finExtract (cleanTaskOf t) with _ | e
      · simp only [hfe, Option.getD]; decide
      · simp only [hfe, Option.getD]
        have := (finExtract_inv hfe).2
        apply hlen
        have he : e.length = e.data.length := rfl
        omega
    | false =>
      simp only [hf, Bool.false_eq_true, if_false]
      cases ha : ["literature", "academic", "research", "study", "analysis"].any
          (fun k => pyContains (pyLower t) k) with
      | true =>
        simp only [ha, if_true]
        rcases hae : acadExtract (cleanTaskOf t) with _ | e
        · simp only [hae, Option.getD]; decide
        · simp only [hae, Option.getD]
          have := (acadExtract_inv hae).2
          apply hlen
          have he : e.length = e.data.length := rfl
          omega
      | false =>
        simp only [ha, Bool.false_eq_true, if_false]
        rcases hte : topicExtract (cleanTaskOf t) with _ | e
        · simp only [hte, Option.getD]; decide
        · simp only [hte, Option.getD]
          have := (topicExtract_inv hte).2
          apply hlen
          have he : e.length = e.data.length := rfl
          omega

/-! ## Joining and membership helpers -/

theorem joinN_ne_empty {a : String} {t : List String} (ha : a ≠ "") :
    joinN (a :: t) ≠ "" := by
  rcases t with _ | ⟨b, t⟩
  · simpa [joinN] using ha
  · show a ++ "\n" ++ joinN (b :: t) ≠ ""
    intro he
    have := congrArg (fun (u : String) => u.data) he
    simp only [String.data_append] at this
    rcases List.append_eq_nil.mp this with ⟨h1, -⟩
    rcases List.append_eq_nil.mp h1 with ⟨h2, -⟩
    exact ha (String.ext h2)

theorem infix_append_left {l₁ l₂ l₃ : List Char} (h : l₁ <:+: l₂) :
    l₁ <:+: l₃ ++ l₂ := by
  obtain ⟨a, b, rfl⟩ := h
  exact ⟨l₃ ++ a, b, by simp⟩

theorem joinN_infix_of_mem {x : String} :
    ∀ {l : List String}, x ∈ l → x.data <:+: (joinN l).data := by
  intro l
  induction l with
  | nil => intro h; simp at h
  | cons a t ih =>
    intro h
    rcases List.mem_cons.mp h with rfl | hmem
    · rcases t with _ | ⟨b, t'⟩
      · exact List.infix_refl _
      · show x.data <:+: (x ++ "\n" ++ joinN (b :: t')).data
        simp only [String.data_append]
        exact ⟨[], ("\n".data ++ (joinN (b :: t')).data), by simp⟩
    · rcases t with _ | ⟨b, t'⟩
      · simp at hmem
      · have hx := ih hmem
        show x.data <:+: (a ++ "\n" ++ joinN (b :: t')).data
        simp only [String.data_append]
        rw [List.append_assoc]
        exact infix_append_left (infix_append_left hx)

/-- A string with a fixed prefix that is not a prefix of `t` cannot
equal `t`. -/
theorem prefixed_ne {p x t : String} (h : ¬ p.data <+: t.data) : p ++ x ≠ t := by
  intro he
  apply h
  rw [← he, String.data_append]
  exact ⟨x.data, rfl⟩

/-! ## Clean-up bucket lemmas -/

theorem setLinearizer_dedup : SetLinearizer (fun l => l.dedup) := by
  intro l
  exact ⟨List.nodup_dedup l, fun x => List.mem_dedup⟩

theorem setLinearizer_dedup_reverse :
    SetLinearizer (fun l => l.dedup.reverse) := by
  intro l
  refine ⟨List.nodup_reverse.mpr (List.nodup_dedup l), fun x => ?_⟩
  rw [List.mem_reverse]
  exact List.mem_dedup

theorem cleanupBucket_le5 {σ : List String → List String} (l : List String) :
    (cleanupBucket σ l).length ≤ 5 := by
  unfold cleanupBucket
  exact List.length_take_le 5 _

theorem cleanupBucket_nodup {σ : List String → List String}
    (hσ : SetLinearizer σ) (l : List String) : (cleanupBucket σ l).Nodup := by
  unfold cleanupBucket
  exact (hσ _).1.sublist (List.take_sublist 5 _)

theorem cleanupBucket_mem {σ : List String → List String}
    (hσ : SetLinearizer σ) {l : List String} {x : String}
    (h : x ∈ cleanupBucket σ l) : x ∈ l := by
  unfold cleanupBucket at h
  have h1 : x ∈ σ (l.filter (fun s => pyStrip s ≠ "")) := List.mem_of_mem_take h
  have h2 := ((hσ _).2 x).mp h1
  exact List.mem_of_mem_filter h2

theorem cleanupBucket_nil {σ : List String → List String}
    (hσ : SetLinearizer σ) : cleanupBucket σ [] = [] := by
  unfold cleanupBucket
  have h : σ (List.filter (fun s => decide (pyStrip s ≠ "")) []) = [] := by
    apply List.eq_nil_iff_forall_not_mem.mpr
    intro x hx
    have := ((hσ _).2 x).mp hx
    simp at this
  rw [h]
  rfl

/-- With at most five distinct surviving entries, the clean-up keeps the
whole deduplicated bucket, so its membership does not depend on the set
iteration order. -/
theorem cleanupBucket_indep {σ₁ σ₂ : List String → List String}
    (hσ₁ : SetLinearizer σ₁) (hσ₂ : SetLinearizer σ₂) {l : List String}
    (hsmall : (l.filter (fun s => pyStrip s ≠ "")).dedup.length ≤ 5) :
    ∀ x, x ∈ cleanupBucket σ₁ l ↔ x ∈ cleanupBucket σ₂ l := by
  have key : ∀ (σ : List String → List String), SetLinearizer σ →
      ∀ x, x ∈ cleanupBucket σ l ↔ x ∈ l.filter (fun s => pyStrip s ≠ "") := by
    intro σ hσ x
    have hperm : List.Perm (σ (l.filter (fun s => pyStrip s ≠ "")))
        (l.filter (fun s => pyStrip s ≠ "")).dedup := by
      refine (List.perm_ext_iff_of_nodup (hσ _).1 (List.nodup_dedup _)).mpr ?_
      intro a
      rw [List.mem_dedup]
      exact (hσ _).2 a
    have hlen : (σ (l.filter (fun s => pyStrip s ≠ ""))).length ≤ 5 := by
      rw [hperm.length_eq]
      exact hsmall
    unfold cleanupBucket
    rw [List.take_of_length_le hlen]
    exact (hσ _).2 x
  intro x
  rw [key σ₁ hσ₁ x, key σ₂ hσ₂ x]

/-! ## The detailed-findings section is omitted on search failure -/

theorem headerTitle_ne_DF (typ name : String) :
    headerTitle typ name ≠ "DETAILED FINDINGS" := by
  unfold headerTitle
  split_ifs <;> decide

theorem DF_not_mem_headerParts {task rq : String} {search : SearchResp}
    {name typ now : String} (hs : search.success = false) :
    "DETAILED FINDINGS" ∉ headerParts task rq search name typ now := by
  unfold headerParts
  rw [hs]
  simp only [Bool.false_eq_true, if_false, List.nil_append]
  refine List.not_mem_append (List.not_mem_append ?_ ?_) ?_
  · refine List.not_mem_cons_of_ne_of_not_mem (by decide)
      (List.not_mem_cons_of_ne_of_not_mem (Ne.symm (headerTitle_ne_DF typ name))
        (List.not_mem_cons_of_ne_of_not_mem (by decide)
          (List.not_mem_cons_of_ne_of_not_mem
            (Ne.symm (prefixed_ne (p := "Request: ") (by decide)))
            (List.not_mem_nil _))))
  · simp
  · refine List.not_mem_cons_of_ne_of_not_mem
      (Ne.symm (prefixed_ne (p := "Agent: ") (by decide)))
      (List.not_mem_cons_of_ne_of_not_mem
        (Ne.symm (prefixed_ne (p := "Generated on: ") (by decide)))
        (by decide))

theorem DF_not_mem_summaryParts {task rq : String} {search : SearchResp}
    {scraped : List Scraped} {name : String} {ins : Insights}
    (hs : search.success = false) :
    "DETAILED FINDINGS" ∉ summaryParts task rq search scraped name ins := by
  unfold summaryParts
  cases h1 : pyContains (pyLower name) "customer" with
  | true => simp only [h1, if_true]; decide
  | false =>
    simp only [h1, Bool.false_eq_true, if_false]
    cases h2 : pyContains (pyLower name) "weather" with
    | true =>
      simp only [h2, if_true, hs, Bool.false_eq_true, if_false]
      decide
    | false =>
      simp only [h2, Bool.false_eq_true, if_false]
      cases h3 : pyContains (pyLower name) "financial" with
      | true =>
        simp only [h3, if_true, hs, Bool.false_eq_true, if_false]
        decide
      | false =>
        simp only [h3, Bool.false_eq_true, if_false]
        cases h4 : pyContains (pyLower name) "academic" with
        | true =>
          simp only [h4, if_true, hs, Bool.false_eq_true, if_false]
          decide
        | false =>
          simp only [h4, Bool.false_eq_true, if_false, hs, Bool.false_and]
          decide

theorem DF_not_mem_recParts {task rq : String} {search : SearchResp}
    {scraped : List Scraped} {name : String} {ins : Insights}
    (hs : search.success = false) :
    "DETAILED FINDINGS" ∉ recParts task rq search scraped name ins := by
  unfold recParts
  cases h1 : pyContains (pyLower name) "customer" with
  | true => simp only [h1, if_true]; decide
  | false =>
    simp only [h1, Bool.false_eq_true, if_false]
    cases h2 : pyContains (pyLower name) "weather" with
    | true =>
      simp only [h2, if_true, hs, Bool.false_eq_true, if_false]
      decide
    | false =>
      simp only [h2, Bool.false_eq_true, if_false]
      cases h3 : pyContains (pyLower name) "financial" with
      | true => simp only [h3, if_true]; decide
      | false =>
        simp only [h3, Bool.false_eq_true, if_false]
        cases h4 : pyContains (pyLower name) "academic" with
        | true => simp only [h4, if_true]; decide
        | false =>
          simp only [h4, Bool.false_eq_true, if_false]
          by_cases h5 : scraped ≠ []
          · rw [if_pos h5]
            cases h6 : pyContains (pyLower rq) "hardware" with
            | true => simp only [h6, if_true]; decide
            | false => simp only [h6, Bool.false_eq_true, if_false]; decide
          · rw [if_neg h5]
            decide

theorem DF_not_mem_contactParts {name : String} :
    "DETAILED FINDINGS" ∉ contactParts name := by
  unfold contactParts
  cases h1 : pyContains (pyLower name) "customer" with
  | true => simp only [h1, if_true]; decide
  | false =>
    simp only [h1, Bool.false_eq_true, if_false]
    cases h2 : pyContains (pyLower name) "weather" with
    | true => simp only [h2, if_true]; decide
    | false =>
      simp only [h2, Bool.false_eq_true, if_false]
      cases h3 : pyContains (pyLower name) "financial" with
      | true => simp only [h3, if_true]; decide
      | false =>
        simp only [h3, Bool.false_eq_true, if_false]
        cases h4 : pyContains (pyLower name) "academic" with
        | true => simp only [h4, if_true]; decide
        | false => simp only [h4, Bool.false_eq_true, if_false]; decide

theorem detailedParts_nil {search : SearchResp} {scraped : List Scraped}
    (hs : search.success = false) : detailedParts search scraped = [] := by
  unfold detailedParts
  rw [hs]
  simp

/-- When the search collaborator did not succeed, no line of the report
is the detailed-findings section marker. -/
theorem DF_not_mem_reportParts {task rq : String} {search : SearchResp}
    {scraped : List Scraped} {name typ : String} {ins : Insights} {now : String}
    (hs : search.success = false) :
    "DETAILED FINDINGS" ∉ reportParts task rq search scraped name typ ins now := by
  unfold reportParts
  rw [detailedParts_nil hs]
  refine List.not_mem_append
    (List.not_mem_append
      (List.not_mem_append
        (List.not_mem_append
          (List.not_mem_append
            (List.not_mem_append
              (List.not_mem_append
                (DF_not_mem_headerParts hs)
                (DF_not_mem_summaryParts hs))
              (by decide))
            (List.not_mem_nil _))
          (DF_not_mem_recParts hs))
        (by decide))
      DF_not_mem_contactParts)
    ?_
  refine List.not_mem_cons_of_ne_of_not_mem (by decide)
    (List.not_mem_cons_of_ne_of_not_mem (by decide)
      (List.not_mem_cons_of_ne_of_not_mem
        (Ne.symm (prefixed_ne (p := "Report generated by ") (by decide)))
        (List.not_mem_cons_of_ne_of_not_mem
          (Ne.symm (prefixed_ne (p := "Agent Type: ") (by decide)))
          (List.not_mem_cons_of_ne_of_not_mem
            (Ne.symm (prefixed_ne (p := "Timestamp: ") (by decide)))
            (by decide)))))

theorem joinN_ne_of_mem_ne {x : String} {l : List String} (hx : x ∈ l)
    (hne : x ≠ "") : joinN l ≠ "" := by
  rcases l with _ | ⟨a, t⟩
  · simp at hx
  · rcases t with _ | ⟨b, t'⟩
    · rw [List.mem_singleton] at hx
      subst hx
      simpa [joinN] using hne
    · show a ++ "\n" ++ joinN (b :: t') ≠ ""
      intro he
      have := congrArg (fun (u : String) => u.data) he
      simp only [String.data_append] at this
      rcases List.append_eq_nil.mp this with ⟨h1, -⟩
      rcases List.append_eq_nil.mp h1 with ⟨-, h2⟩
      simp at h2

/-- The rendered report is never the empty string. -/
theorem reportParts_joined_ne_empty {task rq : String} {search : SearchResp}
    {scraped : List Scraped} {name typ : String} {ins : Insights} {now : String} :
    joinN (reportParts task rq search scraped name typ ins now) ≠ "" := by
  have hmem : bar80 ∈ reportParts task rq search scraped name typ ins now := by
    unfold reportParts headerParts
    simp [List.mem_append]
  exact joinN_ne_of_mem_ne hmem (by decide)

/-! ## Claims about the insight analyzer -/

theorem analyze_eq_empty_of_isEmpty {σ : List String → List String}
    {scraped : List Scraped} {agent_type rq task : String}
    (he : scraped.isEmpty = true) :
    analyzeContentForInsights σ scraped agent_type rq task = Insights.empty := by
  unfold analyzeContentForInsights
  simp only [he, if_true]

theorem analyze_eq_empty_of_noText {σ : List String → List String}
    {scraped : List Scraped} {agent_type rq task : String}
    (he1 : ¬ scraped.isEmpty = true) (he2 : allTextOf scraped = "") :
    analyzeContentForInsights σ scraped agent_type rq task = Insights.empty := by
  unfold analyzeContentForInsights
  rw [if_neg he1, if_pos he2]

theorem analyze_eq_cleanup {σ : List String → List String}
    {scraped : List Scraped} {agent_type rq task : String}
    (he1 : ¬ scraped.isEmpty = true) (he2 : allTextOf scraped ≠ "") :
    analyzeContentForInsights σ scraped agent_type rq task =
      { key_findings := cleanupBucket σ (analyzeRaw scraped agent_type task).key_findings,
        specific_data := cleanupBucket σ (analyzeRaw scraped agent_type task).specific_data,
        recommendations :=
          cleanupBucket σ (analyzeRaw scraped agent_type task).recommendations,
        summary := cleanupBucket σ (analyzeRaw scraped agent_type task).summary } := by
  unfold analyzeContentForInsights
  rw [if_neg he1, if_neg he2]

/-- C4: for every input — every set-iteration order, every scraped
content, every domain tag, query and task text — each of the four
insight buckets holds at most 5 entries and no exact duplicates. -/
theorem claim_C4 (σ : List String → List String) (hσ : SetLinearizer σ)
    (scraped : List Scraped) (agent_type rq task : String) :
    ((analyzeContentForInsights σ scraped agent_type rq task).key_findings.length ≤ 5 ∧
      (analyzeContentForInsights σ scraped agent_type rq task).key_findings.Nodup) ∧
    ((analyzeContentForInsights σ scraped agent_type rq task).specific_data.length ≤ 5 ∧
      (analyzeContentForInsights σ scraped agent_type rq task).specific_data.Nodup) ∧
    ((analyzeContentForInsights σ scraped agent_type rq task).recommendations.length ≤ 5 ∧
      (analyzeContentForInsights σ scraped agent_type rq task).recommendations.Nodup) ∧
    ((analyzeContentForInsights σ scraped agent_type rq task).summary.length ≤ 5 ∧
      (analyzeContentForInsights σ scraped agent_type rq task).summary.Nodup) := by
  have key : ∀ l : List String,
      (cleanupBucket σ l).length ≤ 5 ∧ (cleanupBucket σ l).Nodup :=
    fun l => ⟨cleanupBucket_le5 l, cleanupBucket_nodup hσ l⟩
  by_cases h1 : scraped.isEmpty
  · rw [analyze_eq_empty_of_isEmpty h1]
    exact ⟨⟨by simp [Insights.empty], by simp [Insights.empty]⟩,
      ⟨by simp [Insights.empty], by simp [Insights.empty]⟩,
      ⟨by simp [Insights.empty], by simp [Insights.empty]⟩,
      ⟨by simp [Insights.empty], by simp [Insights.empty]⟩⟩
  · by_cases h2 : allTextOf scraped = ""
    · rw [analyze_eq_empty_of_noText h1 h2]
      exact ⟨⟨by simp [Insights.empty], by simp [Insights.empty]⟩,
        ⟨by simp [Insights.empty], by simp [Insights.empty]⟩,
        ⟨by simp [Insights.empty], by simp [Insights.empty]⟩,
        ⟨by simp [Insights.empty], by simp [Insights.empty]⟩⟩
    · rw [analyze_eq_cleanup h1 h2]
      exact ⟨key _, key _, key _, key _⟩

/-- Witness for C4 at a concrete run: the process's `list(set(·))`
order is instantiated with first-occurrence deduplication. -/
theorem claim_C4_witness :
    (((analyzeContentForInsights (fun l => l.dedup)
        [⟨true, "rainy conditions expected all week long", "t", "", ""⟩]
        "llm" "q" "check the weather please").key_findings.length ≤ 5 ∧
      (analyzeContentForInsights (fun l => l.dedup)
        [⟨true, "rainy conditions expected all week long", "t", "", ""⟩]
        "llm" "q" "check the weather please").key_findings.Nodup) ∧
    ((analyzeContentForInsights (fun l => l.dedup)
        [⟨true, "rainy conditions expected all week long", "t", "", ""⟩]
        "llm" "q" "check the weather please").specific_data.length ≤ 5 ∧
      (analyzeContentForInsights (fun l => l.dedup)
        [⟨true, "rainy conditions expected all week long", "t", "", ""⟩]
        "llm" "q" "check the weather please").specific_data.Nodup) ∧
    ((analyzeContentForInsights (fun l => l.dedup)
        [⟨true, "rainy conditions expected all week long", "t", "", ""⟩]
        "llm" "q" "check the weather please").recommendations.length ≤ 5 ∧
      (analyzeContentForInsights (fun l => l.dedup)
        [⟨true, "rainy conditions expected all week long", "t", "", ""⟩]
        "llm" "q" "check the weather please").recommendations.Nodup) ∧
    ((analyzeContentForInsights (fun l => l.dedup)
        [⟨true, "rainy conditions expected all week long", "t", "", ""⟩]
        "llm" "q" "check the weather please").summary.length ≤ 5 ∧
      (analyzeContentForInsights (fun l => l.dedup)
        [⟨true, "rainy conditions expected all week long", "t", "", ""⟩]
        "llm" "q" "check the weather please").summary.Nodup)) :=
  claim_C4 (fun l => l.dedup) setLinearizer_dedup
    [⟨true, "rainy conditions expected all week long", "t", "", ""⟩]
    "llm" "q" "check the weather please"

set_option maxRecDepth 100000 in
/-- C5, counterexample: with six distinct qualifying temperature lines
the analyzer truncates the hash-ordered deduplicated bucket to five, so
two set-iteration orders (two process runs) keep different five-entry
subsets — the buckets are not equal as sets, refuting the claim as
stated.  The retained subset depends on the set order, which Python
randomises per process. -/
theorem claim_C5_counterexample : ¬ C5Statement := by
  intro h
  have h6 := (h (fun l => l.dedup) (fun l => l.dedup.reverse) setLinearizer_dedup
    setLinearizer_dedup_reverse
    [⟨true, "temperature line one 11 degrees\ntemperature line two 12 degrees\ntemperature line three 13 degrees\ntemperature line four 14 degrees\ntemperature line five 15 degrees\ntemperature line six 16 degrees", "t", "", ""⟩]
    "llm" "q" "weather").2.1
  have hx := h6 "Temperature: temperature line one 11 degrees"
  exact absurd (hx.mp (by decide)) (by decide)

/-- C5, amended: for a fixed set order the analyzer is a function, so
two calls on identical input agree exactly; and whenever each raw
bucket classifies at most five distinct surviving entries, the bucket
contents are independent of the set order (equal as sets across
processes).  With more than five distinct entries the retained subset
depends on the per-process hash order. -/
theorem claim_C5_amended (σ₁ σ₂ : List String → List String)
    (hσ₁ : SetLinearizer σ₁) (hσ₂ : SetLinearizer σ₂)
    (scraped : List Scraped) (agent_type rq task : String)
    (h1 : ((analyzeRaw scraped agent_type task).key_findings.filter
      (fun s => pyStrip s ≠ "")).dedup.length ≤ 5)
    (h2 : ((analyzeRaw scraped agent_type task).specific_data.filter
      (fun s => pyStrip s ≠ "")).dedup.length ≤ 5)
    (h3 : ((analyzeRaw scraped agent_type task).recommendations.filter
      (fun s => pyStrip s ≠ "")).dedup.length ≤ 5)
    (h4 : ((analyzeRaw scraped agent_type task).summary.filter
      (fun s => pyStrip s ≠ "")).dedup.length ≤ 5) :
    (∀ x, x ∈ (analyzeContentForInsights σ₁ scraped agent_type rq task).key_findings ↔
          x ∈ (analyzeContentForInsights σ₂ scraped agent_type rq task).key_findings) ∧
    (∀ x, x ∈ (analyzeContentForInsights σ₁ scraped agent_type rq task).specific_data ↔
          x ∈ (analyzeContentForInsights σ₂ scraped agent_type rq task).specific_data) ∧
    (∀ x, x ∈ (analyzeContentForInsights σ₁ scraped agent_type rq task).recommendations ↔
          x ∈ (analyzeContentForInsights σ₂ scraped agent_type rq task).recommendations) ∧
    (∀ x, x ∈ (analyzeContentForInsights σ₁ scraped agent_type rq task).summary ↔
          x ∈ (analyzeContentForInsights σ₂ scraped agent_type rq task).summary) := by
  by_cases he1 : scraped.isEmpty
  · rw [analyze_eq_empty_of_isEmpty (σ := σ₁) he1,
      analyze_eq_empty_of_isEmpty (σ := σ₂) he1]
    exact ⟨fun x => Iff.rfl, fun x => Iff.rfl, fun x => Iff.rfl, fun x => Iff.rfl⟩
  · by_cases he2 : allTextOf scraped = ""
    · rw [analyze_eq_empty_of_noText (σ := σ₁) he1 he2,
        analyze_eq_empty_of_noText (σ := σ₂) he1 he2]
      exact ⟨fun x => Iff.rfl, fun x => Iff.rfl, fun x => Iff.rfl, fun x => Iff.rfl⟩
    · rw [analyze_eq_cleanup (σ := σ₁) he1 he2, analyze_eq_cleanup (σ := σ₂) he1 he2]
      exact ⟨cleanupBucket_indep hσ₁ hσ₂ h1, cleanupBucket_indep hσ₁ hσ₂ h2,
        cleanupBucket_indep hσ₁ hσ₂ h3, cleanupBucket_indep hσ₁ hσ₂ h4⟩

/-- Witness for the amended C5: two different set orders, one page with
a single qualifying line per bucket. -/
theorem claim_C5_amended_witness :
    (∀ x, x ∈ (analyzeContentForInsights (fun l => l.dedup)
          [⟨true, "rainy conditions expected all week long", "t", "", ""⟩]
          "llm" "q" "weather").key_findings ↔
        x ∈ (analyzeContentForInsights (fun l => l.dedup.reverse)
          [⟨true, "rainy conditions expected all week long", "t", "", ""⟩]
          "llm" "q" "weather").key_findings) ∧
    (∀ x, x ∈ (analyzeContentForInsights (fun l => l.dedup)
          [⟨true, "rainy conditions expected all week long", "t", "", ""⟩]
          "llm" "q" "weather").specific_data ↔
        x ∈ (analyzeContentForInsights (fun l => l.dedup.reverse)
          [⟨true, "rainy conditions expected all week long", "t", "", ""⟩]
          "llm" "q" "weather").specific_data) ∧
    (∀ x, x ∈ (analyzeContentForInsights (fun l => l.dedup)
          [⟨true, "rainy conditions expected all week long", "t", "", ""⟩]
          "llm" "q" "weather").recommendations ↔
        x ∈ (analyzeContentForInsights (fun l => l.dedup.reverse)
          [⟨true, "rainy conditions expected all week long", "t", "", ""⟩]
          "llm" "q" "weather").recommendations) ∧
    (∀ x, x ∈ (analyzeContentForInsights (fun l => l.dedup)
          [⟨true, "rainy conditions expected all week long", "t", "", ""⟩]
          "llm" "q" "weather").summary ↔
        x ∈ (analyzeContentForInsights (fun l => l.dedup.reverse)
          [⟨true, "rainy conditions expected all week long", "t", "", ""⟩]
          "llm" "q" "weather").summary) :=
  claim_C5_amended (fun l => l.dedup) (fun l => l.dedup.reverse)
    setLinearizer_dedup setLinearizer_dedup_reverse
    [⟨true, "rainy conditions expected all week long", "t", "", ""⟩]
    "llm" "q" "weather" (by decide) (by decide) (by decide) (by decide)

/-- C10, counterexample: with the customer domain tag but a task text
containing the word "weather", the weather analyzer runs instead of the
customer one (the branch order tests the task text first), and the
key-findings bucket is populated — refuting the claim as stated. -/
theorem claim_C10_counterexample : ¬ C10Statement := by
  intro h
  have := (h (fun l => l.dedup) setLinearizer_dedup
    [⟨true, "rainy conditions expected all week long", "t", "", ""⟩] "q" "weather").1
  exact absurd this (by decide)

/-- C10, amended: with the customer domain tag, *provided the task text
contains none of the weather / financial / research trigger keywords*
(which would route the call to an earlier analyzer branch), key
findings and summary stay empty and every entry of the other two
buckets carries its fixed label prefix. -/
theorem claim_C10_amended (σ : List String → List String) (hσ : SetLinearizer σ)
    (scraped : List Scraped) (rq task : String)
    (h1 : pyContains (pyLower task) "weather" = false)
    (h2 : (["investment", "market", "financial", "stock"].any
      (fun k => pyContains (pyLower task) k)) = false)
    (h3 : pyContains (pyLower task) "research" = false) :
    (analyzeContentForInsights σ scraped "customer" rq task).key_findings = [] ∧
    (analyzeContentForInsights σ scraped "customer" rq task).summary = [] ∧
    (∀ e ∈ (analyzeContentForInsights σ scraped "customer" rq task).recommendations,
      ∃ r, e = "Solution: " ++ r) ∧
    (∀ e ∈ (analyzeContentForInsights σ scraped "customer" rq task).specific_data,
      ∃ r, e = "Contact Info: " ++ r) := by
  by_cases he1 : scraped.isEmpty
  · rw [analyze_eq_empty_of_isEmpty he1]
    exact ⟨rfl, rfl, by simp [Insights.empty], by simp [Insights.empty]⟩
  · by_cases he2 : allTextOf scraped = ""
    · rw [analyze_eq_empty_of_noText he1 he2]
      exact ⟨rfl, rfl, by simp [Insights.empty], by simp [Insights.empty]⟩
    · rw [analyze_eq_cleanup he1 he2]
      have hraw : analyzeRaw scraped "customer" task =
          { key_findings := [],
            specific_data := ((pySplit (allTextOf scraped) "\n").map pyStrip).filterMap
              (fun l =>
                if l.length < 20 then none
                else if anyKw solKws l then none
                else if anyKw contactKws l then some ("Contact Info: " ++ pyTake l 150)
                else none),
            recommendations := ((pySplit (allTextOf scraped) "\n").map pyStrip).filterMap
              (fun l =>
                if l.length < 20 then none
                else if anyKw solKws l then some ("Solution: " ++ pyTake l 200)
                else none),
            summary := [] } := by
        unfold analyzeRaw
        simp only [show pyContains (pyLower "customer") "weather" = false from by decide,
          show pyContains (pyLower "customer") "financial" = false from by decide,
          show pyContains (pyLower "customer") "academic" = false from by decide,
          show pyContains (pyLower "customer") "customer" = true from by decide,
          h1, h2, h3, Bool.false_or, Bool.or_false, Bool.false_eq_true, if_false,
          if_true]
      rw [hraw]
      refine ⟨cleanupBucket_nil hσ, cleanupBucket_nil hσ, ?_, ?_⟩
      · intro e he
        have hmem := cleanupBucket_mem hσ he
        obtain ⟨l, -, hf⟩ := List.mem_filterMap.mp hmem
        split at hf
        · exact absurd hf (by simp)
        · split at hf
          · exact ⟨pyTake l 200, (Option.some.inj hf).symm⟩
          · exact absurd hf (by simp)
      · intro e he
        have hmem := cleanupBucket_mem hσ he
        obtain ⟨l, -, hf⟩ := List.mem_filterMap.mp hmem
        split at hf
        · exact absurd hf (by simp)
        · split at hf
          · exact absurd hf (by simp)
          · split at hf
            · exact ⟨pyTake l 150, (Option.some.inj hf).symm⟩
            · exact absurd hf (by simp)

/-- Witness for the amended C10 at a concrete customer-service run. -/
theorem claim_C10_amended_witness :
    (analyzeContentForInsights (fun l => l.dedup)
      [⟨true, "please contact our support department for help", "t", "", ""⟩]
      "customer" "q" "hello").key_findings = [] ∧
    (analyzeContentForInsights (fun l => l.dedup)
      [⟨true, "please contact our support department for help", "t", "", ""⟩]
      "customer" "q" "hello").summary = [] ∧
    (∀ e ∈ (analyzeContentForInsights (fun l => l.dedup)
        [⟨true, "please contact our support department for help", "t", "", ""⟩]
        "customer" "q" "hello").recommendations,
      ∃ r, e = "Solution: " ++ r) ∧
    (∀ e ∈ (analyzeContentForInsights (fun l => l.dedup)
        [⟨true, "please contact our support department for help", "t", "", ""⟩]
        "customer" "q" "hello").specific_data,
      ∃ r, e = "Contact Info: " ++ r) :=
  claim_C10_amended (fun l => l.dedup) setLinearizer_dedup
    [⟨true, "please contact our support department for help", "t", "", ""⟩]
    "q" "hello" (by decide) (by decide) (by decide)

/-! ## Claims about intent extraction -/

/-- C6, counterexample: a task text containing only the keyword
"conditions" (no "weather"/"forecast") is *not* routed to the weather
branch: the code's branch test checks only `weather` and `forecast`, so
"conditions in Paris" falls through to the generic branch and its query
is the text itself, not a weather query — refuting the claim as
stated. -/
theorem claim_C6_counterexample : ¬ C6Statement := by
  intro h
  rcases h "conditions in Paris" (by decide) with h | ⟨loc, h⟩
  · have hc : rqCore "conditions in Paris" = "conditions in Paris" := by decide
    rw [hc] at h
    exact absurd h (by decide)
  · have hc : rqCore "conditions in Paris" = "conditions in Paris" := by decide
    rw [hc] at h
    have hp : ("current weather forecast " : String).data <+:
        ("conditions in Paris" : String).data :=
      ⟨loc.data, by rw [← String.data_append, ← h]⟩
    exact absurd hp (by decide)

/-- C6, amended: the classification cascade is weather → financial →
academic → general with first match winning, but the weather rule is
triggered by the keywords `weather` or `forecast` only (`conditions`
alone does not trigger it); when no location phrase is found the query
falls back to "current weather forecast", and the weather branch takes
priority whatever other keywords are present. -/
theorem claim_C6_amended (t : String)
    (hw : (pyContains (pyLower t) "weather" || pyContains (pyLower t) "forecast") = true) :
    (weatherLocation t = none → rqCore t = "current weather forecast") ∧
    (∀ loc, weatherLocation t = some loc →
      rqCore t = if loc ≠ "" then "current weather forecast " ++ loc
        else "current weather forecast") := by
  unfold rqCore
  simp only [hw, if_true]
  constructor
  · intro hl
    simp only [hl]
  · intro loc hl
    simp only [hl]

/-- Witness for the amended C6: a concrete weather task with a
location, evaluated end to end. -/
theorem claim_C6_amended_witness :
    rqCore "weather in Tokyo" =
      if ("Tokyo" : String) ≠ "" then "current weather forecast " ++ "Tokyo"
      else "current weather forecast" :=
  (claim_C6_amended "weather in Tokyo" (by decide)).2 "Tokyo" (by decide)

/-- C7, counterexample: the endpoint rejects an empty task description
with the 400 validation error "Task description is required" before the
pipeline runs, and since the empty text contains no research keyword
its query would remain the raw (empty) text, not the "general research
query" fallback — refuting the claim as stated. -/
theorem claim_C7_counterexample : ¬ C7Statement := by
  intro h
  have := h.1 ⟨"A", "llm"⟩ ⟨false, [], none⟩ (fun _ => ⟨false, "", "", "", ""⟩)
    (fun a _ _ => ⟨false, a, none⟩) "" (fun l => l)
  rw [show executeAgentGeneral "agent-1" (some ⟨"A", "llm"⟩) ""
      (⟨false, [], none⟩ : SearchResp) (fun _ => ⟨false, "", "", "", ""⟩)
      (fun a _ _ => ⟨false, a, none⟩) "" (fun l => l) =
      .error "Task description is required" from rfl] at this
  exact absurd this (by decide)

/-- C7, amended: the pipeline itself is total — for every non-empty
task description (and found agent) the endpoint returns a result, and
whenever a research keyword triggered query derivation the derived
query is non-empty (each branch guard or fallback guarantees it); but
the empty task description is rejected by endpoint validation with a
400 error, and a text with no research keyword keeps the raw text as
its query, so the "general research query" fallback applies only inside
the research path. -/
theorem claim_C7_amended :
    (∀ (agentId : String) (ag : AgentR) (searchResp : SearchResp)
        (scrapeFn : String → Scraped) (emailFn : String → String → String → EmailResp)
        (now : String) (σ : List String → List String),
      agentId ≠ "" →
      executeAgentGeneral agentId (some ag) "" searchResp scrapeFn emailFn now σ =
        .error "Task description is required") ∧
    (∀ (agentId t : String) (ag : AgentR) (searchResp : SearchResp)
        (scrapeFn : String → Scraped) (emailFn : String → String → String → EmailResp)
        (now : String) (σ : List String → List String),
      agentId ≠ "" → t ≠ "" →
      executeAgentGeneral agentId (some ag) t searchResp scrapeFn emailFn now σ =
        .ok (executeTaskWithTools ag t searchResp scrapeFn emailFn now σ)) ∧
    (∀ t, shouldResearch t = true → rqFull t ≠ "") := by
  refine ⟨?_, ?_, ?_⟩
  · intro agentId ag searchResp scrapeFn emailFn now σ hid
    unfold executeAgentGeneral
    rw [if_neg hid, if_pos rfl]
  · intro agentId t ag searchResp scrapeFn emailFn now σ hid ht
    unfold executeAgentGeneral
    rw [if_neg hid, if_neg ht]
  · intro t hsr
    unfold rqFull
    simp only [hsr, if_true]
    exact rqCore_ne_empty t

/-- Witness for the amended C7 at concrete inputs. -/
theorem claim_C7_amended_witness :
    executeAgentGeneral "agent-1" (some ⟨"A", "llm"⟩) ""
        (⟨false, [], none⟩ : SearchResp) (fun _ => ⟨false, "", "", "", ""⟩)
        (fun a _ _ => ⟨false, a, none⟩) "ts" (fun l => l.dedup) =
      .error "Task description is required" ∧
    executeAgentGeneral "agent-1" (some ⟨"A", "llm"⟩) "research cats"
        (⟨false, [], none⟩ : SearchResp) (fun _ => ⟨false, "", "", "", ""⟩)
        (fun a _ _ => ⟨false, a, none⟩) "ts" (fun l => l.dedup) =
      .ok (executeTaskWithTools ⟨"A", "llm"⟩ "research cats"
        (⟨false, [], none⟩ : SearchResp) (fun _ => ⟨false, "", "", "", ""⟩)
        (fun a _ _ => ⟨false, a, none⟩) "ts" (fun l => l.dedup)) ∧
    rqFull "research cats" ≠ "" :=
  ⟨claim_C7_amended.1 "agent-1" ⟨"A", "llm"⟩ ⟨false, [], none⟩
      (fun _ => ⟨false, "", "", "", ""⟩) (fun a _ _ => ⟨false, a, none⟩) "ts"
      (fun l => l.dedup) (by decide),
   claim_C7_amended.2.1 "agent-1" "research cats" ⟨"A", "llm"⟩ ⟨false, [], none⟩
      (fun _ => ⟨false, "", "", "", ""⟩) (fun a _ _ => ⟨false, a, none⟩) "ts"
      (fun l => l.dedup) (by decide) (by decide),
   claim_C7_amended.2.2 "research cats" (by decide)⟩

/-! ## Claims about the pipeline driver -/

/-- C1, counterexample: for the task text
"Send hello to Alice@example.com." — which contains exactly one
e-mail-like substring — the delivery destination is the *lowercased*
"alice@example.com" (the dispatch pattern runs on the lowered text),
and because no research keyword occurs, the derived query remains the
unmodified raw text, address included — refuting the claim as
stated. -/
theorem claim_C1_counterexample : ¬ C1Statement := by
  intro h
  have := h "Send hello to Alice@example.com." "alice@example.com" (by decide) (by decide)
  exact this.2.2 (by decide)

/-- C1, amended: whenever the dispatch pattern captures a destination,
the captured address contains a literal dot and occurs verbatim in the
*lowercased* task text; if the text triggers research, the derived
query contains no dot at all — in particular the address never occurs
in it; if no research keyword is present, the query remains the
unmodified raw text. -/
theorem claim_C1_amended (t addr : String) (h : dispatchCapture t = some addr) :
    ('.' ∈ addr.data) ∧ addr.data <:+: (pyLower t).data ∧
    (shouldResearch t = true →
      (∀ x ∈ (rqFull t).data, x ≠ '.') ∧ ¬ addr.data <:+: (rqFull t).data) ∧
    (shouldResearch t = false → rqFull t = t) := by
  obtain ⟨hdot, hinf⟩ := dispatchCapture_dot h
  refine ⟨hdot, hinf, ?_, ?_⟩
  · intro hsr
    have hq : ∀ x ∈ (rqFull t).data, notDotQB x = true := by
      unfold rqFull
      simp only [hsr, if_true]
      exact rqCore_notDotQ t
    refine ⟨?_, ?_⟩
    · intro x hx heq
      have hb := hq x hx
      rw [heq] at hb
      simp [notDotQB] at hb
    · intro hin
      have hdotq : '.' ∈ (rqFull t).data := hin.mem hdot
      have hb := hq '.' hdotq
      simp [notDotQB] at hb
  · intro hsf
    unfold rqFull
    simp only [hsf, Bool.false_eq_true, if_false]

/-- Witness for the amended C1 on a research-triggering task. -/
theorem claim_C1_amended_witness :
    ('.' ∈ ("bob@example.com" : String).data) ∧
    ("bob@example.com" : String).data <:+:
      (pyLower "research cats send to bob@example.com").data ∧
    (shouldResearch "research cats send to bob@example.com" = true →
      (∀ x ∈ (rqFull "research cats send to bob@example.com").data, x ≠ '.') ∧
      ¬ ("bob@example.com" : String).data <:+:
        (rqFull "research cats send to bob@example.com").data) ∧
    (shouldResearch "research cats send to bob@example.com" = false →
      rqFull "research cats send to bob@example.com" =
        "research cats send to bob@example.com") :=
  claim_C1_amended "research cats send to bob@example.com" "bob@example.com"
    (by decide)

/-- C3: when the task text contains no e-mail-like substring, delivery
is never attempted: no invocation of the delivery collaborator is
recorded, no delivery result exists (the dispatch outcome's
`attempted` is false), and `send_email` is absent from the tools
list. -/
theorem claim_C3 (agent : AgentR) (t : String) (searchResp : SearchResp)
    (scrapeFn : String → Scraped) (emailFn : String → String → String → EmailResp)
    (now : String) (σ : List String → List String)
    (h : containsEmailLike t = false) :
    (executeTaskWithTools agent t searchResp scrapeFn emailFn now σ).sends = [] ∧
    (executeTaskWithTools agent t searchResp scrapeFn emailFn now σ).email_results = [] ∧
    "send_email" ∉
      (executeTaskWithTools agent t searchResp scrapeFn emailFn now σ).tools_used := by
  have hnone : dispatchCapture t = none := by
    rcases hd : dispatchCapture t with _ | addr
    · rfl
    · have he := dispatch_implies_emailLike hd
      rw [h] at he
      exact absurd he (by simp)
  unfold executeTaskWithTools
  simp only [hnone]
  refine ⟨by trivial, by trivial, ?_⟩
  split_ifs <;> first | decide | simp_all

/-- Witness for C3 on a concrete task with no address. -/
theorem claim_C3_witness :
    (executeTaskWithTools ⟨"A", "llm"⟩ "research cats" (⟨false, [], none⟩ : SearchResp)
      (fun _ => ⟨false, "", "", "", ""⟩) (fun a _ _ => ⟨false, a, none⟩) "ts"
      (fun l => l.dedup)).sends = [] ∧
    (executeTaskWithTools ⟨"A", "llm"⟩ "research cats" (⟨false, [], none⟩ : SearchResp)
      (fun _ => ⟨false, "", "", "", ""⟩) (fun a _ _ => ⟨false, a, none⟩) "ts"
      (fun l => l.dedup)).email_results = [] ∧
    "send_email" ∉
      (executeTaskWithTools ⟨"A", "llm"⟩ "research cats" (⟨false, [], none⟩ : SearchResp)
        (fun _ => ⟨false, "", "", "", ""⟩) (fun a _ _ => ⟨false, a, none⟩) "ts"
        (fun l => l.dedup)).tools_used :=
  claim_C3 ⟨"A", "llm"⟩ "research cats" ⟨false, [], none⟩
    (fun _ => ⟨false, "", "", "", ""⟩) (fun a _ _ => ⟨false, a, none⟩) "ts"
    (fun l => l.dedup) (by decide)

/-- C9: the recorded step count is exactly one increment per executed
stage — research, scraping (research succeeded with results), and the
e-mail report — and therefore always between 0 and 3 inclusive
(`steps_completed` is a `Nat`, so the lower bound is implicit). -/
theorem claim_C9 (agent : AgentR) (t : String) (searchResp : SearchResp)
    (scrapeFn : String → Scraped) (emailFn : String → String → String → EmailResp)
    (now : String) (σ : List String → List String) :
    (executeTaskWithTools agent t searchResp scrapeFn emailFn now σ).steps_completed =
      ((if shouldResearch t then 1 else 0) +
        (if shouldResearch t && searchResp.success && !searchResp.results.isEmpty
          then 1 else 0) +
        (if (dispatchCapture t).isSome then 1 else 0)) ∧
    (executeTaskWithTools agent t searchResp scrapeFn emailFn now σ).steps_completed ≤ 3 := by
  have hf : (executeTaskWithTools agent t searchResp scrapeFn emailFn now σ).steps_completed =
      ((if shouldResearch t then 1 else 0) +
        (if shouldResearch t && searchResp.success && !searchResp.results.isEmpty
          then 1 else 0) +
        (if (dispatchCapture t).isSome then 1 else 0)) := rfl
  refine ⟨hf, ?_⟩
  rw [hf]
  split_ifs <;> omega

/-- The delivery-failure line of the response summary. -/
theorem responseParts_email_fail {research_results : List SearchResp} {rq : String}
    {scraped : List Scraped} {e : EmailResp} (hsucc : e.success = false) :
    ("❌ Email failed: " ++ e.error.getD "Unknown error") ∈
      responseParts research_results rq scraped [e] := by
  unfold responseParts
  simp only [hsucc, Bool.false_eq_true, if_false]
  rw [if_neg (by simp)]
  exact List.mem_append_right _ (by simp)

/-- C8: when a destination is present the delivery collaborator is
invoked exactly once — never retried — with the subject derived from
the research query when research succeeded and a generic fallback
subject otherwise, together with the full rendered report body; and on
failure the collaborator's error message appears verbatim in the
caller-facing response. -/
theorem claim_C8 (agent : AgentR) (t : String) (searchResp : SearchResp)
    (scrapeFn : String → Scraped) (emailFn : String → String → String → EmailResp)
    (now : String) (σ : List String → List String) (addr : String)
    (hd : dispatchCapture t = some addr) :
    (executeTaskWithTools agent t searchResp scrapeFn emailFn now σ).sends.length = 1 ∧
    (∀ sd ∈ (executeTaskWithTools agent t searchResp scrapeFn emailFn now σ).sends,
      sd.1 = addr ∧
      sd.2.1 = (if shouldResearch t && searchResp.success then
          "Comprehensive Research Report: " ++ rqFull t
        else agent.name ++ " - Task Completion Report")) ∧
    (∀ e ∈ (executeTaskWithTools agent t searchResp scrapeFn emailFn now σ).email_results,
      e.success = false → ∀ msg, e.error = some msg →
        msg.data <:+:
          (executeTaskWithTools agent t searchResp scrapeFn emailFn now σ).response.data) := by
  unfold executeTaskWithTools
  simp only [hd]
  refine ⟨rfl, ?_, ?_⟩
  · intro sd hsd
    rw [List.mem_singleton] at hsd
    subst hsd
    exact ⟨rfl, rfl⟩
  · intro e he hsucc msg hmsg
    rw [List.mem_singleton] at he
    rw [← he]
    have hsuffix : msg.data <:+:
        ("❌ Email failed: " ++ e.error.getD "Unknown error").data := by
      rw [hmsg]
      show msg.data <:+: ("❌ Email failed: " ++ msg).data
      rw [String.data_append]
      exact ⟨"❌ Email failed: ".data, [], by simp⟩
    exact hsuffix.trans (joinN_infix_of_mem (responseParts_email_fail hsucc))

/-- Witness for C8: a concrete delivery with a failing collaborator. -/
theorem claim_C8_witness :
    (executeTaskWithTools ⟨"A", "llm"⟩ "send report to bob@test.com"
      (⟨false, [], none⟩ : SearchResp) (fun _ => ⟨false, "", "", "", ""⟩)
      (fun a _ _ => ⟨false, a, some "smtp down"⟩) "ts"
      (fun l => l.dedup)).sends.length = 1 ∧
    (∀ sd ∈ (executeTaskWithTools ⟨"A", "llm"⟩ "send report to bob@test.com"
        (⟨false, [], none⟩ : SearchResp) (fun _ => ⟨false, "", "", "", ""⟩)
        (fun a _ _ => ⟨false, a, some "smtp down"⟩) "ts"
        (fun l => l.dedup)).sends,
      sd.1 = "bob@test.com" ∧
      sd.2.1 = (if shouldResearch "send report to bob@test.com" &&
          (⟨false, [], none⟩ : SearchResp).success then
          "Comprehensive Research Report: " ++ rqFull "send report to bob@test.com"
        else ("A" : String) ++ " - Task Completion Report")) ∧
    (∀ e ∈ (executeTaskWithTools ⟨"A", "llm"⟩ "send report to bob@test.com"
        (⟨false, [], none⟩ : SearchResp) (fun _ => ⟨false, "", "", "", ""⟩)
        (fun a _ _ => ⟨false, a, some "smtp down"⟩) "ts"
        (fun l => l.dedup)).email_results,
      e.success = false → ∀ msg, e.error = some msg →
        msg.data <:+:
          (executeTaskWithTools ⟨"A", "llm"⟩ "send report to bob@test.com"
            (⟨false, [], none⟩ : SearchResp) (fun _ => ⟨false, "", "", "", ""⟩)
            (fun a _ _ => ⟨false, a, some "smtp down"⟩) "ts"
            (fun l => l.dedup)).response.data) :=
  claim_C8 ⟨"A", "llm"⟩ "send report to bob@test.com" ⟨false, [], none⟩
    (fun _ => ⟨false, "", "", "", ""⟩) (fun a _ _ => ⟨false, a, some "smtp down"⟩)
    "ts" (fun l => l.dedup) "bob@test.com" (by decide)

/-- C2: when the search collaborator fails (its response carries
`success=False` and an empty result list), the pipeline continues: the
stored search responses carry empty result lists, nothing is scraped,
synthesis still runs, the rendered report omits the detailed-findings
section marker entirely, and the delivered report body is non-empty. -/
theorem claim_C2 (agent : AgentR) (t err : String)
    (scrapeFn : String → Scraped) (emailFn : String → String → String → EmailResp)
    (now : String) (σ : List String → List String) (addr : String)
    (hd : dispatchCapture t = some addr) :
    (∀ r ∈ (executeTaskWithTools agent t (SearchResp.fail err) scrapeFn emailFn
        now σ).research_results, r.results = []) ∧
    (executeTaskWithTools agent t (SearchResp.fail err) scrapeFn emailFn
      now σ).scraped_content = [] ∧
    (∃ subj, (executeTaskWithTools agent t (SearchResp.fail err) scrapeFn emailFn
        now σ).sends = [(addr, subj,
      joinN (reportParts t (rqFull t)
        (if shouldResearch t then SearchResp.fail err else ⟨false, [], none⟩)
        [] agent.name agent.type Insights.empty now))]) ∧
    "DETAILED FINDINGS" ∉ reportParts t (rqFull t)
      (if shouldResearch t then SearchResp.fail err else ⟨false, [], none⟩)
      [] agent.name agent.type Insights.empty now ∧
    joinN (reportParts t (rqFull t)
      (if shouldResearch t then SearchResp.fail err else ⟨false, [], none⟩)
      [] agent.name agent.type Insights.empty now) ≠ "" := by
  have hsfail : (if shouldResearch t then SearchResp.fail err
      else (⟨false, [], none⟩ : SearchResp)).success = false := by
    split <;> rfl
  have hscr : (executeTaskWithTools agent t (SearchResp.fail err) scrapeFn emailFn
      now σ).scraped_content = [] := by
    unfold executeTaskWithTools
    simp only [SearchResp.fail, Bool.and_false, Bool.false_and, Bool.false_eq_true,
      if_false]
  refine ⟨?_, hscr, ?_, DF_not_mem_reportParts hsfail, reportParts_joined_ne_empty⟩
  · have hrr : (executeTaskWithTools agent t (SearchResp.fail err) scrapeFn emailFn
        now σ).research_results =
        if shouldResearch t then [SearchResp.fail err] else [] := rfl
    intro r hr
    rw [hrr] at hr
    split at hr
    · rw [List.mem_singleton] at hr
      subst hr
      rfl
    · simp at hr
  · refine ⟨if shouldResearch t && (SearchResp.fail err).success then
        "Comprehensive Research Report: " ++ rqFull t
      else agent.name ++ " - Task Completion Report", ?_⟩
    have hfs : ∀ e, (SearchResp.fail e).success = false := fun _ => rfl
    unfold executeTaskWithTools
    simp only [hd, hfs, Bool.and_false, Bool.false_and, Bool.false_eq_true, if_false]
    rfl

/-- Witness for C2 at a concrete failed-search delivery run. -/
theorem claim_C2_witness :
    (∀ r ∈ (executeTaskWithTools ⟨"A", "llm"⟩ "send report to bob@test.com"
        (SearchResp.fail "boom") (fun _ => ⟨false, "", "", "", ""⟩)
        (fun a _ _ => ⟨false, a, none⟩) "ts"
        (fun l => l.dedup)).research_results, r.results = []) ∧
    (executeTaskWithTools ⟨"A", "llm"⟩ "send report to bob@test.com"
      (SearchResp.fail "boom") (fun _ => ⟨false, "", "", "", ""⟩)
      (fun a _ _ => ⟨false, a, none⟩) "ts"
      (fun l => l.dedup)).scraped_content = [] ∧
    (∃ subj, (executeTaskWithTools ⟨"A", "llm"⟩ "send report to bob@test.com"
        (SearchResp.fail "boom") (fun _ => ⟨false, "", "", "", ""⟩)
        (fun a _ _ => ⟨false, a, none⟩) "ts"
        (fun l => l.dedup)).sends = [("bob@test.com", subj,
      joinN (reportParts "send report to bob@test.com"
        (rqFull "send report to bob@test.com")
        (if shouldResearch "send report to bob@test.com" then SearchResp.fail "boom"
          else ⟨false, [], none⟩)
        [] "A" "llm" Insights.empty "ts"))]) ∧
    "DETAILED FINDINGS" ∉ reportParts "send report to bob@test.com"
      (rqFull "send report to bob@test.com")
      (if shouldResearch "send report to bob@test.com" then SearchResp.fail "boom"
        else ⟨false, [], none⟩)
      [] "A" "llm" Insights.empty "ts" ∧
    joinN (reportParts "send report to bob@test.com"
      (rqFull "send report to bob@test.com")
      (if shouldResearch "send report to bob@test.com" then SearchResp.fail "boom"
        else ⟨false, [], none⟩)
      [] "A" "llm" Insights.empty "ts") ≠ "" :=
  claim_C2 ⟨"A", "llm"⟩ "send report to bob@test.com" "boom"
    (fun _ => ⟨false, "", "", "", ""⟩) (fun a _ _ => ⟨false, a, none⟩) "ts"
    (fun l => l.dedup) "bob@test.com" (by decide)

end Omnix


